import Mathlib

/-!
Verification of the keyword-driven ATS matching / quality-scoring engine of the
resume-extension backend.

The TypeScript sources are shallowly embedded below.  Strings are modelled by
Lean `String` (a wrapper around `List Char`); JavaScript `String.prototype`
operations (`toLowerCase`, `includes`, `trim`, `split(/\s+/)`) are modelled by
executable functions over the character list.  JavaScript numbers are modelled
by `ℚ` with `Math.round`/`Math.min`/`Math.max` made explicit; `localeCompare`
ordering is approximated by code-point order (the claims under study never
depend on the relative order of distinct keywords).

Embedded components (file / symbol of the source):
* `fileUpload.service.ts` first class (`SemanticATSService`, current version):
  `normalizeATSResult`, `extractHighImpactKeywords`, `isSemanticMatch`.
* `fileUpload.service.ts` second class (superseded version):
  `normalizeATSResult` (no validation), `isSemanticMatch`.
* `openai.service.ts` (`QualityService`): `calculateSimilarityFallback`,
  `extractHighImpactKeywords`, `isSemanticMatch`, `calculateKeywordMatch`,
  `checkCompleteness`, `calculateTruthfulness`, `calculateSectionMatches`,
  `checkHallucination`, `validateContent`.
* `resume.controller.ts` (`regenerate`): the post-regeneration keyword
  verification / score-boost step.
-/

set_option maxRecDepth 10000
set_option linter.unusedVariables false

/-! ## JavaScript string primitives -/

/-- JS whitespace (`\s`) restricted to the ASCII space characters that occur in
the texts under study. -/
def isWsChar (c : Char) : Bool :=
  c == ' ' || c == '\t' || c == '\n' || c == '\r' || c == '\x0b' || c == '\x0c'

/-- `String.prototype.toLowerCase` (ASCII case folding, as `Char.toLower`). -/
def jsToLower (s : String) : String := ⟨s.data.map Char.toLower⟩

/-- Does `sub` occur as a contiguous infix of `hay`?  (List-level engine for
`String.prototype.includes`.) -/
def hasInfix (hay sub : List Char) : Bool :=
  if sub.isPrefixOf hay then true
  else
    match hay with
    | [] => false
    | _ :: t => hasInfix t sub

/-- `s.includes(sub)` of JavaScript. -/
def jsIncludes (s sub : String) : Bool := hasInfix s.data sub.data

/-- `String.prototype.trim`. -/
def jsTrim (s : String) : String :=
  ⟨(s.data.dropWhile isWsChar).reverse.dropWhile isWsChar |>.reverse⟩

/-- `s.split(/\s+/)` on character lists: separators are maximal whitespace
runs (a separator field is emitted at the first character of each run); an
initial (resp. trailing) separator contributes a leading (resp. trailing)
empty field, exactly as in JavaScript. -/
def splitWsChars : List Char → List (List Char)
  | [] => [[]]
  | c :: rest =>
    let tail := splitWsChars rest
    if isWsChar c then
      match rest with
      | d :: _ => if isWsChar d then tail else [] :: tail
      | [] => [] :: tail
    else
      match tail with
      | [] => [[c]]
      | w :: ws => (c :: w) :: ws

/-- `s.split(/\s+/)` of JavaScript. -/
def jsSplitWs (s : String) : List String :=
  (splitWsChars s.data).map fun l => ⟨l⟩

/-- Every field returned by `split(/\s+/)` is at most as long as the input. -/
theorem splitWsChars_length_le (l : List Char) :
    ∀ w ∈ splitWsChars l, w.length ≤ l.length := by
  induction l with
  | nil =>
    intro w hw
    simp only [splitWsChars, List.mem_singleton] at hw
    simp [hw]
  | cons c rest ih =>
    intro w hw
    rw [splitWsChars.eq_def] at hw
    simp only at hw
    by_cases hc : isWsChar c = true
    · simp only [hc, if_true] at hw
      have hw' : w ∈ [] :: splitWsChars rest ∨ w ∈ splitWsChars rest := by
        rcases rest with _ | ⟨d, rest'⟩
        · exact Or.inl hw
        · by_cases hd : isWsChar d = true
          · simp only [hd, if_true] at hw
            exact Or.inr hw
          · simp only [hd] at hw
            exact Or.inl hw
      have hw'' : w = [] ∨ w ∈ splitWsChars rest := by
        rcases hw' with hw' | hw'
        · rcases List.mem_cons.mp hw' with h | h
          · exact Or.inl h
          · exact Or.inr h
        · exact Or.inr hw'
      rcases hw'' with rfl | hmem
      · simp
      · exact le_trans (ih w hmem) (by simp)
    · simp only [hc] at hw
      rcases heq : splitWsChars rest with _ | ⟨w', ws'⟩
      · rw [heq] at hw
        have hw' := List.mem_singleton.mp hw
        subst hw'
        simp
      · rw [heq] at hw
        rcases List.mem_cons.mp hw with rfl | hmem
        · have h1 : w'.length ≤ rest.length := ih w' (by rw [heq]; exact List.mem_cons_self _ _)
          simpa using Nat.succ_le_succ h1
        · have h2 := ih w (by rw [heq]; exact List.mem_cons_of_mem _ hmem)
          simp only [List.length_cons]
          exact Nat.le_succ_of_le h2

theorem jsSplitWs_length_le (s : String) :
    ∀ w ∈ jsSplitWs s, w.length ≤ s.length := by
  intro w hw
  simp only [jsSplitWs, List.mem_map] at hw
  obtain ⟨l, hl, rfl⟩ := hw
  exact splitWsChars_length_le s.data l hl

/-! ## Semantic matchers -/

/-- `isSemanticMatch` of `fileUpload.service.ts` (current `SemanticATSService`,
lines 529–557): exact match, substring containment guarded by a ≥ 4 length on
the shorter string, then shared significant (≥ 4 chars) words. -/
def fuIsSemanticMatch (keyword1 keyword2 : String) : Bool :=
  let k1 := jsToLower keyword1
  let k2 := jsToLower keyword2
  if k1 == k2 then true
  else if (jsIncludes k1 k2 || jsIncludes k2 k1) &&
      (let shorter := if k1.length < k2.length then k1 else k2
       decide (4 ≤ shorter.length)) then true
  else
    let words1 := (jsSplitWs k1).filter fun w => decide (4 ≤ w.length)
    let words2 := (jsSplitWs k2).filter fun w => decide (4 ≤ w.length)
    let sharedWords := words1.filter fun w => words2.contains w
    decide (0 < sharedWords.length)

/-- The curated synonym table of `isSemanticMatch` in `openai.service.ts`
(`QualityService`, lines 2293–2299; the superseded copies at
`openai.service.ts:3034` and `fileUpload.service.ts:882` are identical). -/
def oaSemanticPairs : List (String × String) :=
  [("hardware", "electronic"), ("software", "application"),
   ("cloud", "aws"), ("cloud", "azure"), ("cloud", "gcp"),
   ("database", "mysql"), ("database", "postgresql"), ("database", "mongodb"),
   ("team", "leadership"), ("manage", "lead"), ("develop", "build"),
   ("create", "build"), ("programming", "coding"), ("programming", "development")]

/-- `isSemanticMatch` of `openai.service.ts` (`QualityService`, lines
2286–2304): exact match, then the synonym table checked bidirectionally as
substring containment of either element.  No plain substring rule. -/
def oaIsSemanticMatch (keyword1 keyword2 : String) : Bool :=
  let k1 := jsToLower keyword1
  let k2 := jsToLower keyword2
  if k1 == k2 then true
  else
    oaSemanticPairs.any fun p =>
      (jsIncludes k1 p.1 && jsIncludes k2 p.2) ||
      (jsIncludes k1 p.2 && jsIncludes k2 p.1)

/-! ## Helper lemmas for the matchers -/

theorem shorterLength_comm (k1 k2 : String) :
    (if k1.length < k2.length then k1 else k2).length
      = (if k2.length < k1.length then k2 else k1).length := by
  rcases Nat.lt_trichotomy k1.length k2.length with h | h | h
  · rw [if_pos h, if_neg (Nat.lt_asymm h)]
  · rw [if_neg (by omega), if_neg (by omega)]
    omega
  · rw [if_neg (Nat.lt_asymm h), if_pos h]

theorem filter_contains_pos_comm (l1 l2 : List String) :
    (0 < (l1.filter fun w => l2.contains w).length)
      ↔ (0 < (l2.filter fun w => l1.contains w).length) := by
  simp only [List.length_pos_iff_exists_mem, List.mem_filter, List.elem_iff]
  exact ⟨fun ⟨a, h1, h2⟩ => ⟨a, h2, h1⟩, fun ⟨a, h1, h2⟩ => ⟨a, h2, h1⟩⟩

theorem list_any_ext {α : Type} (l : List α) (f g : α → Bool)
    (h : ∀ x ∈ l, f x = g x) : l.any f = l.any g := by
  induction l with
  | nil => rfl
  | cons x xs ih =>
    simp only [List.any_cons, h x (List.mem_cons_self _ _),
      ih fun y hy => h y (List.mem_cons_of_mem _ hy)]

theorem shorter_short_no_shared (k1 k2 : String)
    (h : (if k1.length < k2.length then k1 else k2).length < 4) :
    (((jsSplitWs k1).filter fun w => decide (4 ≤ w.length)).filter
      (fun w => ((jsSplitWs k2).filter fun w => decide (4 ≤ w.length)).contains w)).length = 0 := by
  rcases Nat.lt_or_ge k1.length k2.length with hlt | hge
  · rw [if_pos hlt] at h
    have h1 : ((jsSplitWs k1).filter fun w => decide (4 ≤ w.length)) = [] := by
      rw [List.filter_eq_nil_iff]
      intro w hw
      have := jsSplitWs_length_le k1 w hw
      simp only [decide_eq_true_eq]
      omega
    rw [h1]
    rfl
  · rw [if_neg (Nat.not_lt.mpr hge)] at h
    have h2 : ((jsSplitWs k2).filter fun w => decide (4 ≤ w.length)) = [] := by
      rw [List.filter_eq_nil_iff]
      intro w hw
      have := jsSplitWs_length_le k2 w hw
      simp only [decide_eq_true_eq]
      omega
    rw [h2]
    rw [List.length_eq_zero, List.filter_eq_nil_iff]
    intro w _
    simp [List.contains]

/-- C6: `isSemanticMatch(a,b) == isSemanticMatch(b,a)` for both distinct
implementations of the matcher in the codebase (`fileUpload.service.ts:529`
and `openai.service.ts:2286`; the copies at `fileUpload.service.ts:874` and
`openai.service.ts:3027` are textually identical to the latter).  Both are
pure functions of their two string arguments. -/
theorem isSemanticMatch_symm (a b : String) :
    fuIsSemanticMatch a b = fuIsSemanticMatch b a ∧
    oaIsSemanticMatch a b = oaIsSemanticMatch b a := by
  constructor
  · unfold fuIsSemanticMatch
    by_cases h : jsToLower a = jsToLower b
    · simp [h]
    · have h1 : (jsToLower a == jsToLower b) = false := beq_eq_false_iff_ne.mpr h
      have h2 : (jsToLower b == jsToLower a) = false :=
        beq_eq_false_iff_ne.mpr (Ne.symm h)
      simp only [h1, h2, Bool.false_eq_true, if_false]
      rw [Bool.or_comm, shorterLength_comm]
      congr 1
      rw [decide_eq_decide]
      exact filter_contains_pos_comm _ _
  · unfold oaIsSemanticMatch
    by_cases h : jsToLower a = jsToLower b
    · simp [h]
    · have h1 : (jsToLower a == jsToLower b) = false := beq_eq_false_iff_ne.mpr h
      have h2 : (jsToLower b == jsToLower a) = false :=
        beq_eq_false_iff_ne.mpr (Ne.symm h)
      simp only [h1, h2, Bool.false_eq_true, if_false]
      apply list_any_ext
      intro p _
      rw [Bool.or_comm]
      congr 1 <;> exact Bool.and_comm _ _

theorem shorterLength_eq_min (k1 k2 : String) :
    (if k1.length < k2.length then k1 else k2).length
      = min k1.length k2.length := by
  split_ifs with h <;> omega

/-- C4 counterexample: the pair ("software", "software development") is not
case-insensitively equal, one lowercased form contains the other, and the
shorter string has ≥ 4 characters, yet the `openai.service.ts` implementation
of the semantic matcher returns no match (it has no substring rule). -/
theorem oa_no_substring_rule_cex :
    jsToLower "software" ≠ jsToLower "software development" ∧
    jsIncludes (jsToLower "software development") (jsToLower "software") = true ∧
    4 ≤ min (jsToLower "software").length
          (jsToLower "software development").length ∧
    oaIsSemanticMatch "software" "software development" = false := by
  decide

/-- C4 (amended): the substring rule as stated holds for the
`fileUpload.service.ts:529` matcher: for non-equal lowercased keywords where
one contains the other, the matcher matches exactly when the shorter string is
at least 4 characters long.  (The `openai.service.ts` matcher has no substring
rule at all, per the counterexample.) -/
theorem fu_substring_rule (a b : String)
    (hne : jsToLower a ≠ jsToLower b)
    (hsub : jsIncludes (jsToLower a) (jsToLower b) = true ∨
            jsIncludes (jsToLower b) (jsToLower a) = true) :
    fuIsSemanticMatch a b = true ↔
      4 ≤ min (jsToLower a).length (jsToLower b).length := by
  unfold fuIsSemanticMatch
  have h1 : (jsToLower a == jsToLower b) = false := beq_eq_false_iff_ne.mpr hne
  simp only [h1, Bool.false_eq_true, if_false]
  have hor : (jsIncludes (jsToLower a) (jsToLower b) ||
      jsIncludes (jsToLower b) (jsToLower a)) = true := by
    rcases hsub with h | h <;> simp [h]
  by_cases hm : 4 ≤ min (jsToLower a).length (jsToLower b).length
  · have hc : ((jsIncludes (jsToLower a) (jsToLower b) ||
        jsIncludes (jsToLower b) (jsToLower a)) &&
        decide (4 ≤ (if (jsToLower a).length < (jsToLower b).length then
          jsToLower a else jsToLower b).length)) = true := by
      rw [Bool.and_eq_true, hor]
      refine ⟨rfl, ?_⟩
      rw [decide_eq_true_eq, shorterLength_eq_min]
      exact hm
    rw [if_pos hc]
    simp [hm]
  · have hlt : (if (jsToLower a).length < (jsToLower b).length then
        jsToLower a else jsToLower b).length < 4 := by
      rw [shorterLength_eq_min]
      omega
    have hc : ((jsIncludes (jsToLower a) (jsToLower b) ||
        jsIncludes (jsToLower b) (jsToLower a)) &&
        decide (4 ≤ (if (jsToLower a).length < (jsToLower b).length then
          jsToLower a else jsToLower b).length)) = false := by
      rw [Bool.and_eq_false_iff]
      right
      simpa using Nat.not_le.mpr hlt
    rw [if_neg (by simp [hc])]
    have hz := shorter_short_no_shared (jsToLower a) (jsToLower b) hlt
    simp only [hz]
    simp [hm]

/-- Witness for `fu_substring_rule` at ("software", "software development"). -/
theorem fu_substring_rule_witness :
    fuIsSemanticMatch "software" "software development" = true :=
  (fu_substring_rule "software" "software development" (by decide)
    (Or.inr (by decide))).mpr (by decide)

/-! ## `SemanticATSService.normalizeATSResult` (`fileUpload.service.ts`)

The AI response (`analysis: any`, from `JSON.parse`) is modelled by a record
of the fields the function reads; a `none` models an absent / wrongly-typed
field (`Array.isArray` guard, `|| 0` default). -/

structure HighImpactKeywords where
  matched : List String
  missing : List String
  deriving Repr, DecidableEq

structure SemanticMatchScores where
  skills : ℚ
  experience : ℚ
  education : ℚ
  tools : ℚ
  deriving Repr, DecidableEq

structure SemanticATSResult where
  similarityScore : ℚ
  matchedKeywords : List String
  missingKeywords : List String
  keywordCoverage : ℚ
  semanticMatches : SemanticMatchScores
  recommendations : List String
  highImpactKeywords : HighImpactKeywords
  deriving Repr, DecidableEq

structure ATSAnalysis where
  similarityScore : Option ℚ
  matchedKeywords : Option (List String)
  missingKeywords : Option (List String)
  keywordCoverage : Option ℚ
  semanticSkills : Option ℚ
  semanticExperience : Option ℚ
  semanticEducation : Option ℚ
  semanticTools : Option ℚ
  recommendations : Option (List String)
  hiMatched : Option (List String)
  hiMissing : Option (List String)
  deriving Repr, DecidableEq

/-- Code-point lexicographic comparison, the model of `localeCompare` used by
the keyword-array sort (the claims under study never depend on the relative
order of distinct keywords). -/
def charListLt : List Char → List Char → Bool
  | [], [] => false
  | [], _ :: _ => true
  | _ :: _, [] => false
  | a :: as, b :: bs =>
    if a.toNat < b.toNat then true
    else if b.toNat < a.toNat then false
    else charListLt as bs

def strCmpLt (a b : String) : Bool := charListLt a.data b.data

/-- JS `Set` insertion: add `x` unless already present (first occurrence kept). -/
def addUnique (acc : List String) (x : String) : List String :=
  if acc.contains x then acc else acc ++ [x]

/-- Insertion-sort by `strCmpLt` (ascending), the model of
`Array.from(set).sort((a, b) => a.localeCompare(b))`. -/
def insertSorted (x : String) : List String → List String
  | [] => [x]
  | y :: ys => if strCmpLt y x then y :: insertSorted x ys else x :: y :: ys

def sortKeywords (l : List String) : List String := l.foldr insertSorted []

/-- `normalizeKeywordArray` helper of `normalizeATSResult`
(`fileUpload.service.ts:367`): keep non-empty trimmed strings, dedupe keeping
first occurrence, sort for stable ordering. -/
def normalizeKeywordArray (arr : Option (List String)) : List String :=
  match arr with
  | none => []
  | some l =>
    sortKeywords (((l.map jsTrim).filter fun t => 0 < t.length).foldl addUnique [])

/-- `normalizeATSResult` of the current `SemanticATSService`
(`fileUpload.service.ts:363`–420): normalizes every keyword array and filters
each "matched" list down to the keywords actually substring-present
(case-insensitively) in the resume; hallucinated keywords are dropped with a
warning log, never an error.  `missingKeywords` is passed through
unvalidated. -/
def fuNormalizeATSResult (analysis : ATSAnalysis) (resumeContent : String) :
    SemanticATSResult :=
  let resumeLower := jsToLower resumeContent
  let allMatchedKeywords := normalizeKeywordArray analysis.matchedKeywords
  let validatedMatchedKeywords := allMatchedKeywords.filter fun kw =>
    jsIncludes resumeLower (jsToLower kw)
  let missingKeywords := normalizeKeywordArray analysis.missingKeywords
  let allHiMatched := normalizeKeywordArray analysis.hiMatched
  let validatedHiMatched := allHiMatched.filter fun kw =>
    jsIncludes resumeLower (jsToLower kw)
  let hiMissing := normalizeKeywordArray analysis.hiMissing
  { similarityScore := min 100 (max 0 (analysis.similarityScore.getD 0)),
    matchedKeywords := validatedMatchedKeywords,
    missingKeywords := missingKeywords,
    keywordCoverage := min 100 (max 0 (analysis.keywordCoverage.getD 0)),
    semanticMatches :=
      { skills := min 100 (max 0 (analysis.semanticSkills.getD 0)),
        experience := min 100 (max 0 (analysis.semanticExperience.getD 0)),
        education := min 100 (max 0 (analysis.semanticEducation.getD 0)),
        tools := min 100 (max 0 (analysis.semanticTools.getD 0)) },
    recommendations := analysis.recommendations.getD [],
    highImpactKeywords :=
      { matched := validatedHiMatched, missing := hiMissing } }

/-- `normalizeATSResult` of the superseded `SemanticATSService`
(`fileUpload.service.ts:722`–744): clamps the numeric fields but passes every
keyword array through verbatim — no validation against the resume text. -/
def fuNormalizeATSResultV2 (analysis : ATSAnalysis) : SemanticATSResult :=
  { similarityScore := min 100 (max 0 (analysis.similarityScore.getD 0)),
    matchedKeywords := analysis.matchedKeywords.getD [],
    missingKeywords := analysis.missingKeywords.getD [],
    keywordCoverage := min 100 (max 0 (analysis.keywordCoverage.getD 0)),
    semanticMatches :=
      { skills := min 100 (max 0 (analysis.semanticSkills.getD 0)),
        experience := min 100 (max 0 (analysis.semanticExperience.getD 0)),
        education := min 100 (max 0 (analysis.semanticEducation.getD 0)),
        tools := min 100 (max 0 (analysis.semanticTools.getD 0)) },
    recommendations := analysis.recommendations.getD [],
    highImpactKeywords :=
      { matched := analysis.hiMatched.getD [],
        missing := analysis.hiMissing.getD [] } }

/-- An AI response that reports "python" both as matched and as missing. -/
def duplicatedAnalysis : ATSAnalysis :=
  { similarityScore := some 80, matchedKeywords := some ["python"],
    missingKeywords := some ["python"], keywordCoverage := some 50,
    semanticSkills := none, semanticExperience := none,
    semanticEducation := none, semanticTools := none,
    recommendations := none, hiMatched := none, hiMissing := none }

/-- C2 counterexample: after normalization of an AI response against the resume
"python developer", the keyword "python" is reported both in
`matchedKeywords` and in `missingKeywords` — the AI-backed path does not
enforce `matchedKeywords ∩ missingKeywords = ∅`. -/
theorem normalizeATSResult_not_disjoint_cex :
    "python" ∈ (fuNormalizeATSResult duplicatedAnalysis
        "python developer").matchedKeywords ∧
    "python" ∈ (fuNormalizeATSResult duplicatedAnalysis
        "python developer").missingKeywords := by
  decide

/-- An AI response that hallucinates a matched keyword. -/
def hallucinatedAnalysis : ATSAnalysis :=
  { similarityScore := some 90, matchedKeywords := some ["kubernetes"],
    missingKeywords := some [], keywordCoverage := some 90,
    semanticSkills := none, semanticExperience := none,
    semanticEducation := none, semanticTools := none,
    recommendations := none, hiMatched := some ["kubernetes"],
    hiMissing := none }

/-- C3 counterexample: the superseded `normalizeATSResult`
(`fileUpload.service.ts:722`) passes model-returned "matched" keywords through
verbatim: "kubernetes" is accepted into `matchedKeywords` although it is not
substring-present in the resume text the analysis was invoked with. -/
theorem normalizeATSResultV2_no_validation_cex :
    "kubernetes" ∈ (fuNormalizeATSResultV2 hallucinatedAnalysis).matchedKeywords ∧
    jsIncludes (jsToLower "Seasoned Python developer")
      (jsToLower "kubernetes") = false := by
  decide

/-- C3 (amended): in the current `normalizeATSResult`
(`fileUpload.service.ts:363`), every keyword accepted into either
matched-keyword list is case-insensitively substring-present in the resume
text; model-returned matches not found in the resume are filtered out (with a
warning log), never surfaced as an error. -/
theorem fuNormalizeATSResult_validates (analysis : ATSAnalysis)
    (resumeContent : String) :
    ∀ kw, (kw ∈ (fuNormalizeATSResult analysis resumeContent).matchedKeywords ∨
        kw ∈ (fuNormalizeATSResult analysis
          resumeContent).highImpactKeywords.matched) →
      jsIncludes (jsToLower resumeContent) (jsToLower kw) = true := by
  intro kw h
  rcases h with h | h <;>
  · simp only [fuNormalizeATSResult, List.mem_filter] at h
    exact h.2

/-- An AI response whose matched keyword really is in the resume. -/
def groundedAnalysis : ATSAnalysis :=
  { similarityScore := some 90, matchedKeywords := some ["Python"],
    missingKeywords := some [], keywordCoverage := some 90,
    semanticSkills := none, semanticExperience := none,
    semanticEducation := none, semanticTools := none,
    recommendations := none, hiMatched := none, hiMissing := none }

/-- Witness for `fuNormalizeATSResult_validates` at a concrete response. -/
theorem fuNormalizeATSResult_validates_witness :
    jsIncludes (jsToLower "Python developer") (jsToLower "Python") = true :=
  fuNormalizeATSResult_validates groundedAnalysis "Python developer" "Python"
    (Or.inl (by decide))

/-! ## Regex scanning machinery

The extractors use a handful of JavaScript regexes (`String.prototype.match`
with the `g` flag, and `RegExp.prototype.test`).  They are modelled by
explicit scanners over character lists with the exact JS semantics:
left-to-right non-overlapping matching, greedy quantifiers, word boundaries
(`\b`), and one-level backtracking out of a trailing group when the final
`\b` fails (deeper backtracking cannot succeed for these patterns, since a
boundary inside a letter run never holds).  Scanners take explicit fuel
(always called with more fuel than the input length, so it never runs out);
they are used only for concrete evaluation. -/

def isUpperChar (c : Char) : Bool := decide ('A' ≤ c) && decide (c ≤ 'Z')
def isLowerChar (c : Char) : Bool := decide ('a' ≤ c) && decide (c ≤ 'z')
def isDigitChar (c : Char) : Bool := decide ('0' ≤ c) && decide (c ≤ '9')
def isWordChar (c : Char) : Bool :=
  isUpperChar c || isLowerChar c || isDigitChar c || c == '_'

/-- `\b` holds between the end of a word-character run and this suffix. -/
def boundaryOK : List Char → Bool
  | [] => true
  | c :: _ => !isWordChar c

/-- `^\d+$`. -/
def isAllDigits (s : String) : Bool := !s.data.isEmpty && s.data.all isDigitChar

/-- `[A-Z][a-z]+` at the head of the list (greedy). -/
def takeCapWord : List Char → Option (List Char × List Char)
  | [] => none
  | c :: rest =>
    if isUpperChar c then
      let ls := rest.takeWhile isLowerChar
      if ls.isEmpty then none
      else some (c :: ls, rest.dropWhile isLowerChar)
    else none

/-- Greedy `(?:\s+[A-Z][a-z]+)*`: returns the consumed groups (each
`\s+[A-Z][a-z]+` segment separately, for one-level backtracking) and the
remaining suffix. -/
def capGroups : Nat → List Char → List (List Char) × List Char
  | 0, cs => ([], cs)
  | fuel + 1, cs =>
    let ws := cs.takeWhile isWsChar
    if ws.isEmpty then ([], cs)
    else
      match takeCapWord (cs.dropWhile isWsChar) with
      | none => ([], cs)
      | some (w, rest) =>
        let (gs, rem) := capGroups fuel rest
        ((ws ++ w) :: gs, rem)

/-- `/\b[A-Z][a-z]+(?:\s+[A-Z][a-z]+)*\b/g`: all matches, left to right. -/
def capScanAux : Nat → List Char → Bool → List (List Char)
  | 0, _, _ => []
  | _ + 1, [], _ => []
  | fuel + 1, c :: rest, prevWord =>
    if prevWord then capScanAux fuel rest (isWordChar c)
    else
      match takeCapWord (c :: rest) with
      | none => capScanAux fuel rest (isWordChar c)
      | some (w, rest1) =>
        let p := capGroups (fuel + 1) rest1
        if boundaryOK p.2 then (w ++ p.1.flatten) :: capScanAux fuel p.2 true
        else if p.1.isEmpty then capScanAux fuel rest (isWordChar c)
        else
          (w ++ p.1.dropLast.flatten) ::
            capScanAux fuel ((p.1.getLast?.getD []) ++ p.2) true

/-- `text.match(/\b[A-Z][a-z]+(?:\s+[A-Z][a-z]+)*\b/g) || []`. -/
def capitalizedMatches (text : String) : List String :=
  (capScanAux (text.data.length + 1) text.data false).map fun l => ⟨l⟩

/-- `[A-Z]{2,}` at the head of the list (greedy maximal run). -/
def takeAcroCore (cs : List Char) : Option (List Char × List Char) :=
  let us := cs.takeWhile isUpperChar
  if 2 ≤ us.length then some (us, cs.dropWhile isUpperChar) else none

/-- Greedy `(?:\/[A-Z]{2,})*` as segments plus remainder. -/
def acroGroups : Nat → List Char → List (List Char) × List Char
  | 0, cs => ([], cs)
  | fuel + 1, cs =>
    match cs with
    | '/' :: rest =>
      (match takeAcroCore rest with
       | some (us, rest1) =>
         let p := acroGroups fuel rest1
         (('/' :: us) :: p.1, p.2)
       | none => ([], cs))
    | _ => ([], cs)

/-- `/\b[A-Z]{2,}(?:\/[A-Z]{2,})*\b/g`: all matches, left to right. -/
def acroScanAux : Nat → List Char → Bool → List (List Char)
  | 0, _, _ => []
  | _ + 1, [], _ => []
  | fuel + 1, c :: rest, prevWord =>
    if prevWord then acroScanAux fuel rest (isWordChar c)
    else
      match takeAcroCore (c :: rest) with
      | none => acroScanAux fuel rest (isWordChar c)
      | some (us, rest1) =>
        let p := acroGroups (fuel + 1) rest1
        if boundaryOK p.2 then (us ++ p.1.flatten) :: acroScanAux fuel p.2 true
        else if p.1.isEmpty then acroScanAux fuel rest (isWordChar c)
        else
          (us ++ p.1.dropLast.flatten) ::
            acroScanAux fuel ((p.1.getLast?.getD []) ++ p.2) true

/-- `text.match(/\b[A-Z]{2,}(?:\/[A-Z]{2,})*\b/g) || []`. -/
def acronymMatches (text : String) : List String :=
  (acroScanAux (text.data.length + 1) text.data false).map fun l => ⟨l⟩

/-- One token of a literal alternation pattern: a literal chunk or `\d+`. -/
inductive PatTok where
  | lit : List Char → PatTok
  | digits : PatTok

/-- Case-sensitive literal prefix strip, returning (consumed, rest). -/
def stripPrefixCS : List Char → List Char → Option (List Char × List Char)
  | [], cs => some ([], cs)
  | _ :: _, [] => none
  | p :: ps, c :: cs =>
    if c == p then (stripPrefixCS ps cs).map fun pr => (c :: pr.1, pr.2)
    else none

def matchPatTok (t : PatTok) (cs : List Char) : Option (List Char × List Char) :=
  match t with
  | .lit p => stripPrefixCS p cs
  | .digits =>
    let ds := cs.takeWhile isDigitChar
    if ds.isEmpty then none else some (ds, cs.dropWhile isDigitChar)

/-- Match a token sequence joined by whitespace runs (`\s+` when `reqWs`,
`\s*` otherwise). -/
def matchToks (reqWs : Bool) : List PatTok → List Char → Option (List Char × List Char)
  | [], cs => some ([], cs)
  | t :: ts, cs =>
    (matchPatTok t cs).bind fun pr =>
      if ts.isEmpty then some pr
      else
        let ws := pr.2.takeWhile isWsChar
        let rest := pr.2.dropWhile isWsChar
        if reqWs && ws.isEmpty then none
        else (matchToks reqWs ts rest).map fun pr2 => (pr.1 ++ ws ++ pr2.1, pr2.2)

/-- First alternative (in pattern order) matching at this position with the
trailing `\b` satisfied. -/
def firstAltMatch (alts : List (List PatTok)) (reqWs : Bool) (cs : List Char) :
    Option (List Char × List Char) :=
  match alts with
  | [] => none
  | alt :: more =>
    match matchToks reqWs alt cs with
    | some pr => if boundaryOK pr.2 then some pr else firstAltMatch more reqWs cs
    | none => firstAltMatch more reqWs cs

/-- `/\b(alt1|alt2|…)\b/g` over a literal alternation. -/
def altScanAux (reqWs : Bool) (alts : List (List PatTok)) :
    Nat → List Char → Bool → List (List Char)
  | 0, _, _ => []
  | _ + 1, [], _ => []
  | fuel + 1, c :: rest, prevWord =>
    if prevWord then altScanAux reqWs alts fuel rest (isWordChar c)
    else
      match firstAltMatch alts reqWs (c :: rest) with
      | some pr =>
        if pr.1.isEmpty then altScanAux reqWs alts fuel rest (isWordChar c)
        else pr.1 :: altScanAux reqWs alts fuel pr.2 true
      | none => altScanAux reqWs alts fuel rest (isWordChar c)

def altScan (alts : List (List PatTok)) (reqWs : Bool) (cs : List Char) :
    List (List Char) :=
  altScanAux reqWs alts (cs.length + 1) cs false

/-- `regex.test(s)` for a word-bounded alternation (`\s+` joins). -/
def wbTest (alts : List (List PatTok)) (s : List Char) : Bool :=
  !(altScan alts true s).isEmpty

def litAlt (s : String) : List PatTok := [.lit s.data]
def litAlts (ss : List String) : List (List PatTok) := ss.map litAlt
def seqAlt (ss : List String) : List PatTok := ss.map fun s => .lit s.data

/-- `^(w)(\s+(w))*$` (resp. `+` for `2 ≤ minWords`) over a prefix-free word
set: every whitespace-separated field lies in the set. -/
def matchesWordSeq (wordSet : List String) (minWords : Nat) (s : List Char) : Bool :=
  let fields := (splitWsChars s).map fun l => (⟨l⟩ : String)
  decide (minWords ≤ fields.length) && fields.all fun f => wordSet.contains f

/-! ## `extractHighImpactKeywords` of `fileUpload.service.ts:475`
(current `SemanticATSService`) -/

/-- `/\d{1,2}\s*(days?|weeks?|months?|hours?|years?)\s*(ago|old)/` tested
anywhere in the (already lowercased) string. -/
def timeRefTest (s : List Char) : Bool :=
  let unitAlts := ["days", "day", "weeks", "week", "months", "month",
    "hours", "hour", "years", "year"]
  let tailAt : List Char → Bool := fun cs =>
    let cs1 := cs.dropWhile isWsChar
    unitAlts.any fun u =>
      match stripPrefixCS u.data cs1 with
      | some pr =>
        let rest := pr.2.dropWhile isWsChar
        (stripPrefixCS "ago".data rest).isSome ||
          (stripPrefixCS "old".data rest).isSome
      | none => false
  (List.range s.length).any fun i =>
    match s.drop i with
    | c :: rest =>
      isDigitChar c &&
        (match rest with
         | d :: rest2 => (isDigitChar d && tailAt rest2) || tailAt rest
         | [] => tailAt [])
    | [] => false

/-- The `isNoise` classifier of `fileUpload.service.ts:494` (regex pattern
list applied to the lowercased trimmed word, plus the `length < 3` cut). -/
def fuIsNoise (word : String) : Bool :=
  let lower := jsTrim (jsToLower word)
  (timeRefTest lower.data ||
   ["posted", "apply", "save", "share", "glance", "at a glance",
    "apply by"].any (fun p => jsIncludes lower p) ||
   ["remote", "onsite", "hybrid", "us", "united states", "based in",
    "location", "work from home"].any (fun p => jsIncludes lower p) ||
   ["january", "february", "march", "april", "may", "june", "july", "august",
    "september", "october", "november", "december", "monday", "tuesday",
    "wednesday", "thursday", "friday", "saturday", "sunday"].contains lower ||
   ["the", "a", "an", "and", "or", "but", "in", "on", "at", "to", "for", "of",
    "with", "by", "from", "as", "is", "was", "are", "were", "been", "be",
    "have", "has", "had", "do", "does", "did", "will", "would", "should",
    "could", "may", "might", "must", "can", "this", "that", "these", "those",
    "i", "you", "he", "she", "it", "we", "they", "what", "which", "who",
    "whom", "whose", "where", "when", "why", "how", "all", "each", "every",
    "both", "few", "more", "most", "other", "some", "such", "no", "nor",
    "not", "only", "own", "same", "so", "than", "too", "very", "just",
    "now"].contains lower ||
   ["looking", "seeking", "candidate", "position", "role", "opportunity",
    "company", "team", "work", "environment", "culture", "benefits",
    "compensation", "salary", "hour", "week", "year", "experience",
    "required", "preferred", "qualifications", "responsibilities", "duties",
    "tasks"].contains lower ||
   isAllDigits lower) ||
  decide (lower.length < 3)

/-- `extractHighImpactKeywords` of `fileUpload.service.ts:475`–523: acronyms
(original case), then capitalized words, filtered through `isNoise`,
deduplicated in insertion order and capped at 50. -/
def fuExtractHighImpactKeywords (text : String) : List String :=
  let k1 := (acronymMatches text).foldl
    (fun acc a =>
      let clean := jsTrim a
      if 2 ≤ clean.length && !fuIsNoise clean then addUnique acc clean else acc)
    []
  let k2 := (capitalizedMatches text).foldl
    (fun acc w =>
      let clean := jsTrim w
      if 3 ≤ clean.length && !fuIsNoise clean && !isAllDigits clean then
        addUnique acc clean
      else acc)
    k1
  k2.take 50

/-! ## `extractHighImpactKeywords` of `openai.service.ts:2092`
(`QualityService`) -/

def oaNoiseWords : List String :=
  ["posted", "apply", "save", "share", "days", "ago", "weeks", "months",
   "mount", "laurel", "onsite", "remote", "hybrid", "full-time", "part-time",
   "glance", "united", "states", "work", "home",
   "january", "february", "march", "april", "may", "june", "july",
   "august", "september", "october", "november", "december",
   "the", "a", "an", "and", "or", "but", "in", "on", "at", "to", "for", "of",
   "with", "by", "from", "as", "is", "was", "are", "were", "been", "be",
   "have", "has", "had", "do", "does", "did", "will", "would", "should",
   "could", "may", "might", "must", "can", "this", "that", "these", "those",
   "i", "you", "he", "she", "it", "we", "they", "what", "which", "who",
   "whom", "whose", "where", "when", "why", "how", "all", "each", "every",
   "both", "few", "more", "most", "other", "some", "such", "no", "nor", "not",
   "only", "own", "same", "so", "than", "too", "very", "just", "now",
   "looking", "seeking", "candidate", "position", "role", "opportunity",
   "company", "team", "environment", "culture", "benefits",
   "compensation", "salary", "hour", "week", "year", "experience", "required",
   "preferred", "qualifications", "responsibilities", "duties", "tasks"]

/-- The five `technicalPatterns` of `openai.service.ts:2121`–2127 (the `gi`
flag is modelled by scanning the lowercased text: the extractor lowercases
every match anyway, and case folding preserves word-character status). -/
def oaTechnicalPatterns : List (List (List PatTok)) :=
  [litAlts ["python", "java", "javascript", "typescript", "react", "vue",
     "angular", "node", "django", "flask", "laravel", "spring", "express",
     "next", "nuxt"],
   litAlts ["aws", "azure", "gcp", "docker", "kubernetes", "terraform",
     "jenkins", "gitlab", "github", "ci/cd"],
   litAlts ["mysql", "postgresql", "mongodb", "redis", "elasticsearch",
     "dynamodb"],
   litAlts ["agile", "scrum", "kanban", "devops", "tdd", "bdd"],
   litAlts ["git", "jira", "confluence", "slack", "figma", "sketch",
     "tableau"] ++ [seqAlt ["power", "bi"]]]

/-- `/^[a-z]+\s+(inc|llc|corp|company)$/`. -/
def matchesCompanySuffix (s : List Char) : Bool :=
  let ls := s.takeWhile isLowerChar
  let rest := s.dropWhile isLowerChar
  !ls.isEmpty &&
    (let ws := rest.takeWhile isWsChar
     let rest1 := rest.dropWhile isWsChar
     !ws.isEmpty &&
       ["inc", "llc", "corp", "company"].any fun t => rest1 == t.data)

/-- `/^[a-z]+\s+health/` (prefix-only, unanchored at the end). -/
def startsCompanyHealth (s : List Char) : Bool :=
  let ls := s.takeWhile isLowerChar
  let rest := s.dropWhile isLowerChar
  !ls.isEmpty &&
    (let ws := rest.takeWhile isWsChar
     let rest1 := rest.dropWhile isWsChar
     !ws.isEmpty && (stripPrefixCS "health".data rest1).isSome)

def oaFillerWordsFinal : List String :=
  ["the", "this", "that", "what", "which", "who", "you", "your", "role",
   "app", "job", "position", "application"]

/-- The final `filteredKeywords` pass of `openai.service.ts:2203`–2278. -/
def oaKeywordFinalFilter (kw : String) : Bool :=
  let lower := jsToLower kw
  let words := jsSplitWs lower
  if jsIncludes lower " health" || jsIncludes lower " healthcare" ||
      startsCompanyHealth lower.data then false
  else if ["slack", "email", "phone", "zoom", "teams"].contains lower &&
      !jsIncludes lower "api" && !jsIncludes lower "sdk" then false
  else if words.length == 1 &&
      ["app", "application", "role", "job", "position", "work", "team",
       "company", "this", "that", "what", "you", "your", "the", "a", "an",
       "open", "close"].contains lower then false
  else
    let fillerCount :=
      (words.filter fun w => oaFillerWordsFinal.contains w).length
    if 1 < words.length && 0 < fillerCount &&
        words.length < 2 * fillerCount then false
    else if 2 ≤ words.length && words.length ≤ 4 && 2 ≤ fillerCount then false
    else if 2 ≤ words.length &&
        (oaFillerWordsFinal.contains (words.getD 0 "") ||
         oaFillerWordsFinal.contains (words.getD (words.length - 1) "")) &&
        !(["machine learning", "deep learning", "natural language",
           "artificial intelligence", "cloud computing", "data science",
           "web development", "mobile development", "software engineering",
           "system design", "api design", "user experience"].any fun p =>
             jsIncludes lower p) &&
        2 ≤ fillerCount then false
    else if (["posted", "apply", "save", "share", "intern", "internship",
         "work", "home", "united", "states"].any fun w =>
           jsIncludes lower w) &&
        wbTest (litAlts ["posted", "apply", "save", "share", "intern",
          "internship", "work", "home", "united", "states"]) lower.data &&
        !wbTest (litAlts ["python", "java", "react", "aws", "docker",
          "kubernetes", "terraform", "api", "sdk", "framework",
          "library"]) lower.data then false
    else if wbTest [seqAlt ["united", "states"], seqAlt ["mount", "laurel"],
        litAlt "remote", litAlt "onsite", litAlt "hybrid"] lower.data then
      false
    else if wbTest [seqAlt ["save", "share"], seqAlt ["apply", "save"],
        seqAlt ["apply", "at"], [PatTok.lit "posted".data, PatTok.digits],
        seqAlt ["days", "ago"]] lower.data then false
    else if matchesWordSeq ["intern", "posted", "save", "share", "apply",
        "work", "home", "united", "states"] 1 lower.data then false
    else true

/-- `extractHighImpactKeywords` of `openai.service.ts:2092`–2281: technical
patterns, then capitalized words with the filler/company/industry skip rules,
then the final filter pass. -/
def oaExtractHighImpactKeywords (text : String) : List String :=
  let k1 := oaTechnicalPatterns.foldl
    (fun acc pat =>
      (altScan pat false (jsToLower text).data).foldl
        (fun acc m =>
          let clean := jsTrim (jsToLower ⟨m⟩)
          if 3 ≤ clean.length && !oaNoiseWords.contains clean then
            addUnique acc clean
          else acc)
        acc)
    []
  let k2 := (capitalizedMatches text).foldl
    (fun acc word =>
      let clean := jsTrim (jsToLower word)
      let words := jsSplitWs clean
      if oaNoiseWords.contains clean then acc
      else if isAllDigits clean then acc
      else if decide (clean.length < 3) then acc
      else if 1 < words.length &&
          ["the", "this", "that", "what", "which", "who", "you", "your",
           "our", "we", "they"].contains (words.getD 0 "") &&
          (["role", "position", "job", "work", "team", "company", "app",
            "application"].contains (words.getD 1 "") ||
           words.length ≤ 3) then acc
      else if words.length == 1 &&
          ["app", "application", "role", "job", "position", "work", "team",
           "company", "this", "that", "what", "you", "your"].contains
            clean then acc
      else if jsIncludes clean "inc" || jsIncludes clean "llc" ||
          jsIncludes clean "corp" || jsIncludes clean "company" ||
          jsIncludes clean "health inc" || jsIncludes clean "healthcare inc" ||
          matchesCompanySuffix clean.data then acc
      else if ["healthcare", "health", "care", "business", "industry",
           "sector", "field"].contains clean &&
          !jsIncludes clean "tech" && !jsIncludes clean "software" then acc
      else if 2 ≤ words.length &&
          (let fillerCount := (words.filter fun w =>
             ["the", "this", "that", "what", "which", "who", "you", "your",
              "role", "app", "job", "position"].contains w).length
           (0 < fillerCount && words.length < 2 * fillerCount) ||
             (words.length ≤ 3 && 2 ≤ fillerCount)) then acc
      else addUnique acc clean)
    k1
  k2.filter oaKeywordFinalFilter

/-- C9: on the job-board boilerplate string
"Posted 3 days ago in Mount Laurel, United States. Apply now." the
`fileUpload.service.ts` high-impact extractor yields the near-empty set
consisting only of "Mount Laurel", the `openai.service.ts` extractor yields
the empty set, and no output contains (case-insensitively) any of the
job-board / date / location tokens "posted", "apply", "days ago",
"united states". -/
theorem noise_rejection_scenario :
    fuExtractHighImpactKeywords
        "Posted 3 days ago in Mount Laurel, United States. Apply now."
      = ["Mount Laurel"] ∧
    oaExtractHighImpactKeywords
        "Posted 3 days ago in Mount Laurel, United States. Apply now."
      = [] ∧
    (["Mount Laurel"].all fun kw =>
      ["posted", "apply", "days ago", "united states"].all fun t =>
        !jsIncludes (jsToLower kw) t) = true := by
  decide

/-! ## Similarity fallback scorer (`openai.service.ts`, `QualityService`) -/

/-- `Math.round` (half up, as for the non-negative scores at hand). -/
def jsRound (x : ℚ) : ℚ := (⌊x + 1 / 2⌋ : ℤ)

/-- Case-insensitive literal prefix strip (`i`-flag matching). -/
def stripPrefixCI : List Char → List Char → Option (List Char × List Char)
  | [], cs => some ([], cs)
  | _ :: _, [] => none
  | p :: ps, c :: cs =>
    if c.toLower == p.toLower then
      (stripPrefixCI ps cs).map fun pr => (c :: pr.1, pr.2)
    else none

/-- One match of `` `${indicator}[\s:]+([^.,;]+)` `` (`gi`) at this position:
the indicator (case-insensitive), a greedy separator run, then a greedy
capture up to `.`/`,`/`;`.  When the capture would be empty the separator run
yields its last character to it (the lone backtracking case). -/
def matchSkillAt (ind : List Char) (cs : List Char) :
    Option (List Char × List Char) :=
  (stripPrefixCI ind cs).bind fun pr =>
    let isSep : Char → Bool := fun c => isWsChar c || c == ':'
    let sep := pr.2.takeWhile isSep
    if sep.isEmpty then none
    else
      let r2 := pr.2.dropWhile isSep
      let isCap : Char → Bool := fun c => !(c == '.' || c == ',' || c == ';')
      let cap := r2.takeWhile isCap
      if cap.isEmpty then
        if 2 ≤ sep.length then some (pr.1 ++ sep, r2) else none
      else some (pr.1 ++ sep ++ cap, r2.dropWhile isCap)

def skillScanAux (ind : List Char) : Nat → List Char → List (List Char)
  | 0, _ => []
  | _ + 1, [] => []
  | fuel + 1, c :: rest =>
    match matchSkillAt ind (c :: rest) with
    | some pr => pr.1 :: skillScanAux ind fuel pr.2
    | none => skillScanAux ind fuel rest

/-- `m.replace(new RegExp(indicator, 'gi'), '')`. -/
def replaceAllCI (ind : List Char) : Nat → List Char → List Char
  | 0, cs => cs
  | _ + 1, [] => []
  | fuel + 1, c :: rest =>
    match stripPrefixCI ind (c :: rest) with
    | some pr => replaceAllCI ind fuel pr.2
    | none => c :: replaceAllCI ind fuel rest

/-- `s.split(/[,;]/)`. -/
def splitCommaSemi : List Char → List (List Char)
  | [] => [[]]
  | c :: rest =>
    if c == ',' || c == ';' then [] :: splitCommaSemi rest
    else
      match splitCommaSemi rest with
      | [] => [[c]]
      | w :: ws => (c :: w) :: ws

/-- `extractSkillKeywords` of `openai.service.ts:2709`–2739. -/
def extractSkillKeywords (text : String) : List String :=
  let skillIndicators := ["skill", "proficient", "experience with",
    "knowledge of", "familiar with", "expertise in"]
  let keywords := skillIndicators.foldl
    (fun acc ind =>
      (skillScanAux ind.data (text.data.length + 1) text.data).foldl
        (fun acc m =>
          let skills := ((splitCommaSemi
              (replaceAllCI ind.data (m.length + 1) m)).map fun s =>
                jsToLower (jsTrim ⟨s⟩)).filter fun s => 2 < s.length
          acc ++ skills)
        acc)
    []
  keywords.foldl addUnique []

structure SectionMatches where
  skills : ℚ
  experience : ℚ
  education : ℚ
  deriving Repr, DecidableEq

structure SimilarityMetrics where
  similarityScore : ℚ
  matchedKeywords : List String
  missingKeywords : List String
  keywordCoverage : ℚ
  sectionMatches : SectionMatches
  deriving Repr, DecidableEq

/-- `calculateSectionMatches` of `openai.service.ts:2584`–2626. -/
def calculateSectionMatches (resumeContent jobDescription : String) :
    SectionMatches :=
  let resumeLower := jsToLower resumeContent
  let jobLower := jsToLower jobDescription
  let skillKeywords := extractSkillKeywords jobLower
  let resumeSkills := extractSkillKeywords resumeLower
  let skillsMatch : ℚ :=
    if 0 < skillKeywords.length then
      ((skillKeywords.filter fun sk => resumeSkills.contains sk).length : ℚ) /
        (skillKeywords.length : ℚ) * 100
    else 100
  let experienceTerms := ["experience", "worked", "developed", "managed", "led"]
  let jobHasExperience := experienceTerms.any fun t => jsIncludes jobLower t
  let resumeHasExperience := experienceTerms.any fun t => jsIncludes resumeLower t
  let experienceMatch : ℚ := if jobHasExperience && resumeHasExperience then 100 else 50
  let educationTerms := ["degree", "education", "bachelor", "master", "phd"]
  let jobHasEducation := educationTerms.any fun t => jsIncludes jobLower t
  let resumeHasEducation := educationTerms.any fun t => jsIncludes resumeLower t
  let educationMatch : ℚ := if jobHasEducation && resumeHasEducation then 100 else 50
  { skills := jsRound skillsMatch,
    experience := experienceMatch,
    education := educationMatch }

/-- `calculateSimilarityFallback` of `openai.service.ts:2042`–2087. -/
def calculateSimilarityFallback (resumeContent jobDescription : String) :
    SimilarityMetrics :=
  let resumeKeywords := oaExtractHighImpactKeywords resumeContent
  let jobKeywords := oaExtractHighImpactKeywords jobDescription
  let matchedKeywords := jobKeywords.filter fun keyword =>
    resumeKeywords.any fun rk =>
      jsToLower rk == jsToLower keyword || oaIsSemanticMatch rk keyword
  let missingKeywords := jobKeywords.filter fun keyword =>
    !(matchedKeywords.any fun m => jsToLower m == jsToLower keyword)
  let keywordCoverage : ℚ :=
    if 0 < jobKeywords.length then
      (matchedKeywords.length : ℚ) / (jobKeywords.length : ℚ) * 100
    else 0
  let sectionMatches := calculateSectionMatches resumeContent jobDescription
  let similarityScore :=
    keywordCoverage * (0.7 : ℚ) +
      (sectionMatches.skills * (0.15 : ℚ) +
       sectionMatches.experience * (0.1 : ℚ) +
       sectionMatches.education * (0.05 : ℚ))
  { similarityScore := jsRound (min 100 similarityScore),
    matchedKeywords := matchedKeywords.take 30,
    missingKeywords := missingKeywords.take 20,
    keywordCoverage := jsRound keywordCoverage,
    sectionMatches := sectionMatches }

/-- `calculateKeywordMatch` of `openai.service.ts:2565`–2579. -/
def calculateKeywordMatch (jobKeywords tailoredKeywords : List String) : ℚ :=
  if jobKeywords.length == 0 then 100
  else
    let matched := (jobKeywords.filter fun keyword =>
      tailoredKeywords.any fun tk =>
        jsToLower tk == jsToLower keyword || oaIsSemanticMatch tk keyword).length
    jsRound ((matched : ℚ) / (jobKeywords.length : ℚ) * 100)

/-- C5: in the fallback scorer the reported `keywordCoverage` is
`round(100 · |matched| / |jobKeywords|)` computed from the *full* matched set
(0 when the extracted job keyword set is empty), while the returned keyword
lists are truncated to the top 30 / top 20 — so the truncation never affects
the coverage value. -/
theorem fallback_coverage_formula (resumeContent jobDescription : String) :
    (calculateSimilarityFallback resumeContent jobDescription).keywordCoverage
        = (if oaExtractHighImpactKeywords jobDescription = [] then 0
           else jsRound (100 *
             (((oaExtractHighImpactKeywords jobDescription).filter fun keyword =>
               (oaExtractHighImpactKeywords resumeContent).any fun rk =>
                 jsToLower rk == jsToLower keyword ||
                   oaIsSemanticMatch rk keyword).length : ℚ) /
             ((oaExtractHighImpactKeywords jobDescription).length : ℚ))) ∧
    (calculateSimilarityFallback resumeContent jobDescription).matchedKeywords
        = ((oaExtractHighImpactKeywords jobDescription).filter fun keyword =>
            (oaExtractHighImpactKeywords resumeContent).any fun rk =>
              jsToLower rk == jsToLower keyword ||
                oaIsSemanticMatch rk keyword).take 30 ∧
    (calculateSimilarityFallback resumeContent jobDescription).missingKeywords.length
      ≤ 20 := by
  refine ⟨?_, rfl, ?_⟩
  · simp only [calculateSimilarityFallback]
    by_cases h : oaExtractHighImpactKeywords jobDescription = []
    · rw [if_pos h]
      rw [if_neg (by simp [h])]
      norm_num [jsRound]
    · rw [if_neg h]
      rw [if_pos (by simpa using List.length_pos.mpr h)]
      congr 1
      ring
  · simp only [calculateSimilarityFallback]
    exact List.length_take_le _ _

/-- C2 (amended): the deterministic fallback scorer always produces
case-insensitively disjoint `matchedKeywords` / `missingKeywords` lists.  (The
AI-backed normalization path does not enforce this, per the counterexample.) -/
theorem fallback_disjoint (resumeContent jobDescription : String) :
    ∀ m ∈ (calculateSimilarityFallback resumeContent
        jobDescription).matchedKeywords,
      ∀ mi ∈ (calculateSimilarityFallback resumeContent
          jobDescription).missingKeywords,
        jsToLower m ≠ jsToLower mi := by
  intro m hm mi hmi
  simp only [calculateSimilarityFallback] at hm hmi
  have hm' := List.take_subset _ _ hm
  have hmi' := List.take_subset _ _ hmi
  have hmi'' := (List.mem_filter.mp hmi').2
  rw [Bool.not_eq_eq_eq_not, Bool.not_true, List.any_eq_false] at hmi''
  have h3 := hmi'' m hm'
  simpa using h3

/-- Witness for `fallback_disjoint` on the spec's running scenario. -/
theorem fallback_disjoint_witness : jsToLower "python" ≠ jsToLower "aws" :=
  fallback_disjoint "Python developer"
    "Looking for a developer with Python, AWS, and Docker experience"
    "python" (by decide) "aws" (by decide)

/-- C7: the quality validator's `calculateKeywordMatch` returns 100 on an
empty job keyword set, while the fallback scorer's `keywordCoverage` is 0 in
the same "nothing to match" case. -/
theorem emptyJobKeywords_asymmetry :
    (∀ tailoredKeywords, calculateKeywordMatch [] tailoredKeywords = 100) ∧
    ∀ resumeContent jobDescription,
      oaExtractHighImpactKeywords jobDescription = [] →
        (calculateSimilarityFallback resumeContent
          jobDescription).keywordCoverage = 0 := by
  constructor
  · intro tailoredKeywords
    simp [calculateKeywordMatch]
  · intro resumeContent jobDescription h
    simp only [calculateSimilarityFallback]
    rw [if_neg (by simp [h])]
    norm_num [jsRound]

/-- Witness for `emptyJobKeywords_asymmetry` at concrete inputs. -/
theorem emptyJobKeywords_asymmetry_witness :
    calculateKeywordMatch [] ["python"] = 100 ∧
    (calculateSimilarityFallback "Python developer" "").keywordCoverage = 0 :=
  ⟨emptyJobKeywords_asymmetry.1 ["python"],
   emptyJobKeywords_asymmetry.2 "Python developer" "" (by decide)⟩

/-! ## Quality validator (`openai.service.ts`, `QualityService`) -/

/-- `ParsedResumeContent` restricted to the fields the embedded functions
read (`raw_text`; `experience[].company/role/title`). -/
structure ExperienceEntry where
  company : Option String
  role : Option String
  title : Option String
  deriving Repr, DecidableEq

structure ParsedResumeContent where
  raw_text : Option String
  experience : Option (List ExperienceEntry)
  deriving Repr, DecidableEq

/-- JS truthiness of an optional string (`undefined` and `""` are falsy). -/
def truthyStr : Option String → Bool
  | none => false
  | some s => !(s == "")

/-- First-occurrence-preserving deduplication (`[...new Set(list)]`). -/
def dedupKeepFirst (l : List String) : List String := l.foldl addUnique []

/-- `extractCompanies` of `openai.service.ts:2631`. -/
def extractCompanies (resume : ParsedResumeContent) : List String :=
  match resume.experience with
  | none => []
  | some exps => exps.foldl
      (fun acc exp =>
        if truthyStr exp.company then acc ++ [exp.company.getD ""] else acc)
      []

/-- `extractJobTitles` of `openai.service.ts:2684`. -/
def extractJobTitles (resume : ParsedResumeContent) : List String :=
  match resume.experience with
  | none => []
  | some exps => exps.foldl
      (fun acc exp =>
        if truthyStr exp.role || truthyStr exp.title then
          acc ++ [if truthyStr exp.role then exp.role.getD ""
                  else exp.title.getD ""]
        else acc)
      []

def isLetterAZ (c : Char) : Bool := isUpperChar c || isLowerChar c

/-- Lazy `(…)+?` capture loop: at each step first try the terminator (a
one-character class, optionally a two-character literal, or end of input),
then extend by one allowed character. -/
def lazyCapAux (allowed : Char → Bool) (twoCharTerm : Option (List Char)) :
    Nat → List Char → Option (List Char × List Char)
  | 0, _ => none
  | _ + 1, [] => some ([], [])
  | fuel + 1, c :: rest =>
    if c == ',' || c == '.' then some ([c], rest)
    else
      match twoCharTerm with
      | some t =>
        (match stripPrefixCI t (c :: rest) with
         | some pr => some (pr.1, pr.2)
         | none =>
           if allowed c then
             (lazyCapAux allowed twoCharTerm fuel rest).map fun pr =>
               (c :: pr.1, pr.2)
           else none)
      | none =>
        if allowed c then
          (lazyCapAux allowed twoCharTerm fuel rest).map fun pr =>
            (c :: pr.1, pr.2)
        else none

/-- One match of `/(?:at|with|from)\s+([A-Z][a-zA-Z\s&]+?)(?:,|\.|$)/` at this
position (case-sensitive, no word boundaries — exactly as in the source). -/
def matchCompanyAt (fuel : Nat) (cs : List Char) :
    Option (List Char × List Char) :=
  (["at", "with", "from"].findSome? fun p => stripPrefixCS p.data cs).bind
    fun pr1 =>
      let ws := pr1.2.takeWhile isWsChar
      let r1 := pr1.2.dropWhile isWsChar
      if ws.isEmpty then none
      else
        let allowed : Char → Bool := fun c =>
          isLetterAZ c || isWsChar c || c == '&'
        match r1 with
        | c0 :: c1 :: r2 =>
          if isUpperChar c0 && allowed c1 then
            (lazyCapAux allowed none fuel r2).map fun pr =>
              (pr1.1 ++ ws ++ c0 :: c1 :: pr.1, pr.2)
          else none
        | _ => none

def companyScanAux : Nat → List Char → List (List Char)
  | 0, _ => []
  | _ + 1, [] => []
  | fuel + 1, c :: rest =>
    match matchCompanyAt (fuel + 1) (c :: rest) with
    | some pr => pr.1 :: companyScanAux fuel pr.2
    | none => companyScanAux fuel rest

/-- `m.replace(/(?:at|with|from)\s+/i, '')` (first occurrence only). -/
def replaceFirstPrepWs : Nat → List Char → List Char
  | 0, cs => cs
  | _ + 1, [] => []
  | fuel + 1, c :: rest =>
    match (["at", "with", "from"].findSome? fun p =>
        (stripPrefixCI p.data (c :: rest)).bind fun pr =>
          if (pr.2.takeWhile isWsChar).isEmpty then none
          else some (pr.2.dropWhile isWsChar)) with
    | some rest1 => rest1
    | none => c :: replaceFirstPrepWs fuel rest

/-- The known tools/technologies excluded from the company check
(`openai.service.ts:2646`). -/
def toolsAndTechnologies : List String :=
  ["github actions", "github", "docker", "kubernetes", "terraform", "jenkins",
   "aws", "azure", "gcp", "react", "vue", "angular", "node", "python", "java",
   "javascript", "typescript", "django", "flask", "laravel", "spring",
   "express", "mysql", "postgresql", "mongodb", "redis", "elasticsearch",
   "dynamodb", "git", "jira", "confluence", "slack", "figma", "sketch",
   "tableau", "power bi", "ci/cd", "devops", "agile", "scrum", "kanban",
   "tdd", "bdd"]

/-- `extractCompaniesFromText` of `openai.service.ts:2644`–2679. -/
def extractCompaniesFromText (text : String) : List String :=
  let ms := companyScanAux (text.data.length + 1) text.data
  (ms.map fun m => jsTrim ⟨replaceFirstPrepWs (m.length + 1) m⟩).filter
    fun company =>
      let lower := jsToLower company
      if toolsAndTechnologies.contains lower then false
      else if jsIncludes lower "actions" || jsIncludes lower "docker" ||
          jsIncludes lower "kubernetes" || jsIncludes lower "github" then false
      else
        decide (1 < (jsSplitWs company).length) || jsIncludes lower "inc" ||
          jsIncludes lower "llc" || jsIncludes lower "corp" ||
          jsIncludes lower "ltd"

/-- One match of
`/(?:as|position|role|title)[:\s]+([A-Z][a-zA-Z\s]+?)(?:,|\.|at|$)/gi` at this
position (the `i` flag makes `[A-Z]` any letter and `at` any casing). -/
def matchTitleAt (fuel : Nat) (cs : List Char) :
    Option (List Char × List Char) :=
  (["as", "position", "role", "title"].findSome? fun p =>
      stripPrefixCI p.data cs).bind fun pr1 =>
    let isSep : Char → Bool := fun c => isWsChar c || c == ':'
    let sep := pr1.2.takeWhile isSep
    let r1 := pr1.2.dropWhile isSep
    if sep.isEmpty then none
    else
      let allowed : Char → Bool := fun c => isLetterAZ c || isWsChar c
      match r1 with
      | c0 :: c1 :: r2 =>
        if isLetterAZ c0 && allowed c1 then
          (lazyCapAux allowed (some "at".data) fuel r2).map fun pr =>
            (pr1.1 ++ sep ++ c0 :: c1 :: pr.1, pr.2)
        else none
      | _ => none

def titleScanAux : Nat → List Char → List (List Char)
  | 0, _ => []
  | _ + 1, [] => []
  | fuel + 1, c :: rest =>
    match matchTitleAt (fuel + 1) (c :: rest) with
    | some pr => pr.1 :: titleScanAux fuel pr.2
    | none => titleScanAux fuel rest

/-- `m.replace(/(?:as|position|role|title)[:\s]+/i, '')`. -/
def replaceFirstTitlePrefix : Nat → List Char → List Char
  | 0, cs => cs
  | _ + 1, [] => []
  | fuel + 1, c :: rest =>
    match (["as", "position", "role", "title"].findSome? fun p =>
        (stripPrefixCI p.data (c :: rest)).bind fun pr =>
          let isSep : Char → Bool := fun d => isWsChar d || d == ':'
          if (pr.2.takeWhile isSep).isEmpty then none
          else some (pr.2.dropWhile isSep)) with
    | some rest1 => rest1
    | none => c :: replaceFirstTitlePrefix fuel rest

/-- `extractJobTitlesFromText` of `openai.service.ts:2697`–2704. -/
def extractJobTitlesFromText (text : String) : List String :=
  (titleScanAux (text.data.length + 1) text.data).map fun m =>
    jsTrim ⟨replaceFirstTitlePrefix (m.length + 1) m⟩

structure HallucinationCheck where
  hasIssues : Bool
  warnings : List String
  deriving Repr, DecidableEq

/-- `checkHallucination` of `openai.service.ts:2428`–2490: flags companies
and (sufficiently many) job titles of the tailored text that have no fuzzy
match in the original resume. -/
def checkHallucination (originalResume : ParsedResumeContent)
    (tailoredContent : String) : HallucinationCheck :=
  let originalCompanies := extractCompanies originalResume
  let tailoredCompanies := extractCompaniesFromText tailoredContent
  let newCompanies := tailoredCompanies.filter fun company =>
    !(originalCompanies.any fun oc => jsToLower oc == jsToLower company)
  let warnings1 : List String :=
    if 0 < newCompanies.length then
      ["Warning: New companies detected that weren\x27t in original resume: " ++
        String.intercalate ", " newCompanies]
    else []
  let originalTitles := extractJobTitles originalResume
  let tailoredTitles := extractJobTitlesFromText tailoredContent
  let suspiciousTitles := tailoredTitles.filter fun title =>
    let titleLower := jsToLower title
    !(originalTitles.any fun ot =>
      let otLower := jsToLower ot
      if jsIncludes titleLower otLower || jsIncludes otLower titleLower then
        true
      else
        let titleWords := dedupKeepFirst (jsSplitWs titleLower)
        let otWords := jsSplitWs otLower
        let commonWords := titleWords.filter fun w => otWords.contains w
        decide (2 ≤ commonWords.length) &&
          commonWords.any fun w => decide (3 < w.length))
  let warnings2 : List String :=
    if 0 < suspiciousTitles.length &&
        (decide ((originalTitles.length : ℚ) * (1.5 : ℚ) <
          (suspiciousTitles.length : ℚ)) ||
         decide (3 ≤ suspiciousTitles.length)) then
      warnings1 ++
        ["Warning: New job titles detected that may not match original experience"]
    else warnings1
  { hasIssues := decide (0 < warnings2.length), warnings := warnings2 }

structure CompletenessResult where
  score : ℚ
  hasIssues : Bool
  warnings : List String
  deriving Repr, DecidableEq

/-- `checkCompleteness` of `openai.service.ts:2495`–2524: start from 100,
lose 20 per required section keyword absent from the tailored text and 10
when the text is under 500 characters, clamped at 0. -/
def checkCompleteness (originalResume : ParsedResumeContent)
    (tailoredContent : String) : CompletenessResult :=
  let requiredSections := ["experience", "skills", "education"]
  let tailoredLower := jsToLower tailoredContent
  let p : List String × ℚ := requiredSections.foldl
    (fun p sec =>
      if !jsIncludes tailoredLower sec then
        (p.1 ++ ["Missing " ++ sec ++ " section"], p.2 - 20)
      else p)
    ([], 100)
  let p2 : List String × ℚ :=
    if tailoredContent.length < 500 then
      (p.1 ++ ["Tailored content seems too short"], p.2 - 10)
    else p
  { score := max 0 p2.2,
    hasIssues := decide (0 < p2.1.length),
    warnings := p2.1 }

/-- `calculateTruthfulness` of `openai.service.ts:2529`–2560: a fixed 85 in
flexible mode; otherwise the fraction of distinct ≥ 4-character tailored
words that also occur in the original raw text, scaled to 0–100. -/
def calculateTruthfulness (originalResume : ParsedResumeContent)
    (tailoredContent : String) (generateFreely : Bool) : ℚ :=
  if generateFreely then 85
  else
    let originalText := jsToLower (originalResume.raw_text.getD "")
    let tailoredText := jsToLower tailoredContent
    let originalWords :=
      dedupKeepFirst ((jsSplitWs originalText).filter fun w => 4 ≤ w.length)
    let tailoredWords :=
      dedupKeepFirst ((jsSplitWs tailoredText).filter fun w => 4 ≤ w.length)
    let overlap :=
      (tailoredWords.filter fun w => originalWords.contains w).length
    let totalTailored := tailoredWords.length
    if totalTailored == 0 then 0
    else min 100 (jsRound ((overlap : ℚ) / (totalTailored : ℚ) * 100))

/-- C10: `checkCompleteness` always scores between 30 and 100 — at most three
20-point section deductions plus one 10-point length deduction apply, so the
final `Math.max(0, score)` clamp is unreachable. -/
theorem checkCompleteness_bounds (originalResume : ParsedResumeContent)
    (tailoredContent : String) :
    30 ≤ (checkCompleteness originalResume tailoredContent).score ∧
    (checkCompleteness originalResume tailoredContent).score ≤ 100 := by
  unfold checkCompleteness
  by_cases h1 : jsIncludes (jsToLower tailoredContent) "experience" = true <;>
    by_cases h2 : jsIncludes (jsToLower tailoredContent) "skills" = true <;>
    by_cases h3 : jsIncludes (jsToLower tailoredContent) "education" = true <;>
    by_cases h4 : tailoredContent.length < 500 <;>
    simp [h1, h2, h3, h4, List.foldl] <;> norm_num

/-- `/^\d{1,2}\/\d{1,2}\/\d{2,4}$/`. -/
def matchesDatePattern (s : List Char) : Bool :=
  let d1 := s.takeWhile isDigitChar
  let r1 := s.dropWhile isDigitChar
  (1 ≤ d1.length && d1.length ≤ 2) &&
    match r1 with
    | '/' :: r2 =>
      let d2 := r2.takeWhile isDigitChar
      let r3 := r2.dropWhile isDigitChar
      (1 ≤ d2.length && d2.length ≤ 2) &&
        match r3 with
        | '/' :: r4 => r4.all isDigitChar && 2 ≤ r4.length && r4.length ≤ 4
        | _ => false
    | _ => false

/-- `/^(from|to|at|in|on|with|by|for|of)\s+/`. -/
def startsWithPrepWs (s : List Char) : Bool :=
  ["from", "to", "at", "in", "on", "with", "by", "for", "of"].any fun p =>
    match stripPrefixCS p.data s with
    | some pr => !(pr.2.takeWhile isWsChar).isEmpty
    | none => false

/-- The `criticalMissing` filter of `validateContent`
(`openai.service.ts:1757`–1946): drops short tokens, company/school names,
generic words, dates, preposition-led phrases, first names, job-board
boilerplate, location phrases, filler-heavy phrases and non-technical single
words; everything else is a critical missing keyword. -/
def oaCriticalMissingFilter (kw : String) : Bool :=
  let lower := jsTrim (jsToLower kw)
  if decide (lower.length < 3) then false
  else if jsIncludes lower "inc" || jsIncludes lower "llc" ||
      jsIncludes lower "corp" || jsIncludes lower "company" ||
      jsIncludes lower "health inc" || jsIncludes lower "healthcare inc" ||
      jsIncludes lower "school" || jsIncludes lower "university" ||
      jsIncludes lower "college" || jsIncludes lower "harvard" ||
      jsIncludes lower "mit" || jsIncludes lower "stanford" then false
  else if ["healthcare", "health", "care", "business", "industry", "slack",
      "email", "from", "to", "the", "a", "an", "and", "or", "but", "in", "on",
      "at", "for", "of", "with", "by", "as", "is", "was", "are", "were",
      "been", "be", "have", "has", "had", "open", "close", "new", "old",
      "first", "last", "next", "previous", "founder"].contains lower then
    false
  else if (["january", "february", "march", "april", "may", "june", "july",
       "august", "september", "october", "november", "december"].any fun m =>
         jsIncludes lower m) ||
      matchesDatePattern lower.data then false
  else if startsWithPrepWs lower.data then false
  else if ["jakob", "john", "jane", "mike", "sarah", "david", "emily",
      "chris", "lisa", "michael", "omi"].contains lower then false
  else if wbTest [seqAlt ["intern", "posted"], seqAlt ["save", "share"],
      seqAlt ["apply", "save"], seqAlt ["save", "apply"],
      seqAlt ["apply", "at"], [PatTok.lit "posted".data, PatTok.digits],
      seqAlt ["days", "ago"]] lower.data then false
  else if wbTest [seqAlt ["united", "states", "work"],
      seqAlt ["united", "states"], seqAlt ["mount", "laurel"]] lower.data then
    false
  else if matchesWordSeq ["intern", "posted", "save", "share", "apply",
      "work", "home", "united", "states"] 2 lower.data then false
  else
    let fillerWords := ["the", "this", "that", "what", "which", "who", "you",
      "your", "role", "app", "application", "job", "position"]
    let words := jsSplitWs lower
    let fillerCount := (words.filter fun w => fillerWords.contains w).length
    if 0 < fillerCount && words.length < 2 * fillerCount then false
    else if (fillerWords.contains (words.getD 0 "") ||
        fillerWords.contains (words.getD (words.length - 1) "")) &&
        (words.length ≤ 3 && 2 ≤ fillerCount) then false
    else if words.length == 1 &&
        ["app", "application", "role", "job", "position", "work", "team",
         "company", "this", "that", "what", "which", "who", "you", "your",
         "the", "a", "an", "open", "close", "new", "old", "first", "last",
         "next", "previous"].contains (words.getD 0 "") then false
    else if ["the role", "this role", "the role this", "what you",
        "what you need", "the app", "this app", "the application",
        "this application", "the job", "this job", "the position",
        "this position", "you will", "you must", "you should", "you need",
        "you have", "we are", "we have", "we need", "we want", "we offer",
        "the team", "this team", "our team", "the company", "this company",
        "the work", "this work", "the project", "this project"].any
          (fun phrase =>
            jsIncludes lower phrase && (jsSplitWs lower).length ≤ 4) then
      false
    else true

/-- The missing-keyword warning string of `openai.service.ts:1955`–1966
(the plural form is written `"… keyword" ++ "s: …"` so that the common stem
appears as an explicit factor). -/
def mkMissingKeywordWarning (criticalMissing : List String) : String :=
  let topMissing := criticalMissing.take 5
  if topMissing.length ≤ 3 then
    "Missing " ++ toString topMissing.length ++ " critical keyword" ++
      (if 1 < topMissing.length then "s" else "") ++ ": " ++
      String.intercalate ", " topMissing
  else
    "Missing " ++ toString topMissing.length ++ " critical keyword" ++
      "s: " ++ String.intercalate ", " (topMissing.take 3) ++ ", and " ++
      toString (topMissing.length - 3) ++ " more"

structure QualityFlags where
  hasHallucination : Bool
  hasMissingKeywords : Bool
  hasIncompleteSections : Bool
  deriving Repr, DecidableEq

structure QualityScore where
  overall : ℚ
  truthfulness : ℚ
  completeness : ℚ
  keywordMatch : ℚ
  warnings : List String
  flags : QualityFlags
  deriving Repr, DecidableEq

/-- `validateContent` of `openai.service.ts:1714`–1999. -/
def validateContent (originalResume : ParsedResumeContent)
    (tailoredContent jobDescription : String) (generateFreely : Bool) :
    QualityScore :=
  let jobKeywords := oaExtractHighImpactKeywords jobDescription
  let tailoredKeywords := oaExtractHighImpactKeywords tailoredContent
  let hallu :=
    if !generateFreely then checkHallucination originalResume tailoredContent
    else { hasIssues := false, warnings := [] }
  let hasHallucination := !generateFreely && hallu.hasIssues
  let warnings1 : List String :=
    if !generateFreely && hallu.hasIssues then hallu.warnings else []
  let missingKeywords := jobKeywords.filter fun keyword =>
    !(tailoredKeywords.any fun tk =>
      jsToLower tk == jsToLower keyword || oaIsSemanticMatch tk keyword)
  let keywordMatch := calculateKeywordMatch jobKeywords tailoredKeywords
  let criticalMissing := missingKeywords.filter oaCriticalMissingFilter
  let missingWarn := !generateFreely && decide (keywordMatch < 80) &&
    decide (2 < criticalMissing.length)
  let warnings2 :=
    if missingWarn then warnings1 ++ [mkMissingKeywordWarning criticalMissing]
    else warnings1
  let completenessCheck := checkCompleteness originalResume tailoredContent
  let warnings3 :=
    if completenessCheck.hasIssues then warnings2 ++ completenessCheck.warnings
    else warnings2
  let truthfulness :=
    calculateTruthfulness originalResume tailoredContent generateFreely
  let completeness := completenessCheck.score
  let overall := truthfulness * (0.4 : ℚ) + completeness * (0.3 : ℚ) +
    keywordMatch * (0.3 : ℚ)
  { overall := jsRound overall,
    truthfulness := jsRound truthfulness,
    completeness := jsRound completeness,
    keywordMatch := jsRound keywordMatch,
    warnings := warnings3,
    flags := { hasHallucination := hasHallucination,
               hasMissingKeywords := missingWarn,
               hasIncompleteSections := completenessCheck.hasIssues } }

/-! ## String lemmas for the warning analysis -/

/-- `s.startsWith(p)` (used only to characterize warning strings). -/
def strStartsWith (s p : String) : Bool := p.data.isPrefixOf s.data

theorem hasInfix_iff (h s : List Char) : hasInfix h s = true ↔ s <:+: h := by
  induction h with
  | nil =>
    rw [hasInfix]
    by_cases hp : s.isPrefixOf ([] : List Char) = true
    · rw [if_pos hp]
      simp only [true_iff]
      exact (List.isPrefixOf_iff_prefix.mp hp).isInfix
    · rw [if_neg hp]
      constructor
      · intro hx
        exact absurd hx (by simp)
      · intro hx
        exfalso
        apply hp
        apply List.isPrefixOf_iff_prefix.mpr
        have hs : s = [] := by simpa using hx.length_le
        simp [hs]
  | cons a t ih =>
    rw [hasInfix]
    constructor
    · intro hx
      by_cases hp : s.isPrefixOf (a :: t) = true
      · exact (List.isPrefixOf_iff_prefix.mp hp).isInfix
      · rw [if_neg hp] at hx
        exact List.infix_cons_iff.mpr (Or.inr (ih.mp hx))
    · intro hx
      rcases List.infix_cons_iff.mp hx with hx | hx
      · rw [if_pos (List.isPrefixOf_iff_prefix.mpr hx)]
      · by_cases hp : s.isPrefixOf (a :: t) = true
        · rw [if_pos hp]
        · rw [if_neg hp]
          exact ih.mpr hx

theorem jsIncludes_iff (s sub : String) :
    jsIncludes s sub = true ↔ sub.data <:+: s.data :=
  hasInfix_iff s.data sub.data

theorem strStartsWith_append_left (a b p : String) (h : p.length ≤ a.length) :
    strStartsWith (a ++ b) p = strStartsWith a p := by
  unfold strStartsWith
  rw [String.data_append]
  rw [Bool.eq_iff_iff, List.isPrefixOf_iff_prefix, List.isPrefixOf_iff_prefix]
  constructor
  · intro hp
    have h' : p.data.length ≤ a.data.length := h
    have h1 := List.prefix_iff_eq_take.mp hp
    rw [List.take_append_of_le_length h'] at h1
    rw [h1]
    exact List.take_prefix _ _
  · intro hp
    exact hp.trans (List.prefix_append _ _)

theorem strStartsWith_append_self (p x : String) :
    strStartsWith (p ++ x) p = true := by
  unfold strStartsWith
  rw [String.data_append]
  exact List.isPrefixOf_iff_prefix.mpr (List.prefix_append _ _)

/-- Every warning `checkHallucination` emits begins with "Warning: ". -/
theorem checkHallucination_warnings_shape (o : ParsedResumeContent)
    (t : String) :
    ∀ w ∈ (checkHallucination o t).warnings,
      strStartsWith w "Missing " = false := by
  intro w hw
  simp only [checkHallucination] at hw
  set w1 := "Warning: New companies detected that weren\x27t in original resume: " ++
    String.intercalate ", "
      ((extractCompaniesFromText t).filter fun company =>
        !((extractCompanies o).any fun oc => jsToLower oc == jsToLower company))
    with hw1
  have hshape : w = w1 ∨
      w = "Warning: New job titles detected that may not match original experience" := by
    split at hw <;> split at hw <;>
      simp only [List.mem_append, List.mem_singleton, List.not_mem_nil] at hw <;>
      tauto
  rcases hshape with rfl | rfl
  · rw [hw1, strStartsWith_append_left _ _ _ (by decide)]
    decide
  · decide

/-- `checkCompleteness` only ever emits one of four fixed warning strings. -/
theorem checkCompleteness_warnings_shape (o : ParsedResumeContent)
    (t : String) :
    ∀ w ∈ (checkCompleteness o t).warnings,
      w = "Missing experience section" ∨ w = "Missing skills section" ∨
      w = "Missing education section" ∨
      w = "Tailored content seems too short" := by
  intro w hw
  unfold checkCompleteness at hw
  by_cases h1 : jsIncludes (jsToLower t) "experience" = true <;>
    by_cases h2 : jsIncludes (jsToLower t) "skills" = true <;>
    by_cases h3 : jsIncludes (jsToLower t) "education" = true <;>
    by_cases h4 : t.length < 500 <;>
    simp [h1, h2, h3, h4, List.foldl] at hw <;>
    tauto

/-- The constructed missing-keyword warning starts with "Missing " and
contains " critical keyword". -/
theorem mkMissingKeywordWarning_shape (criticalMissing : List String) :
    strStartsWith (mkMissingKeywordWarning criticalMissing) "Missing " = true ∧
    jsIncludes (mkMissingKeywordWarning criticalMissing)
      " critical keyword" = true := by
  by_cases hlen : (criticalMissing.take 5).length ≤ 3
  · simp only [mkMissingKeywordWarning, if_pos hlen]
    constructor
    · have : "Missing " ++ toString (criticalMissing.take 5).length ++
          " critical keyword" ++
          (if 1 < (criticalMissing.take 5).length then "s" else "") ++ ": " ++
          String.intercalate ", " (criticalMissing.take 5)
          = "Missing " ++ (toString (criticalMissing.take 5).length ++
            (" critical keyword" ++
            ((if 1 < (criticalMissing.take 5).length then "s" else "") ++
              (": " ++ String.intercalate ", " (criticalMissing.take 5))))) := by
        simp only [String.append_assoc]
      rw [this]
      exact strStartsWith_append_self _ _
    · rw [jsIncludes_iff]
      simp only [String.data_append]
      exact ⟨"Missing ".data ++ (toString (criticalMissing.take 5).length).data,
        (if 1 < (criticalMissing.take 5).length then "s" else "").data ++
          ": ".data ++
          (String.intercalate ", " (criticalMissing.take 5)).data,
        by simp⟩
  all_goals simp only [mkMissingKeywordWarning, if_neg hlen]
  · constructor
    · have : "Missing " ++ toString (criticalMissing.take 5).length ++
          " critical keyword" ++ "s: " ++
          String.intercalate ", " ((criticalMissing.take 5).take 3) ++
          ", and " ++ toString ((criticalMissing.take 5).length - 3) ++ " more"
          = "Missing " ++ (toString (criticalMissing.take 5).length ++
            (" critical keyword" ++ ("s: " ++
            (String.intercalate ", " ((criticalMissing.take 5).take 3) ++
            (", and " ++ (toString ((criticalMissing.take 5).length - 3) ++
              " more")))))) := by
        simp only [String.append_assoc]
      rw [this]
      exact strStartsWith_append_self _ _
    · rw [jsIncludes_iff]
      simp only [String.data_append]
      exact ⟨"Missing ".data ++ (toString (criticalMissing.take 5).length).data,
        "s: ".data ++
          (String.intercalate ", " ((criticalMissing.take 5).take 3)).data ++
          ", and ".data ++ (toString ((criticalMissing.take 5).length - 3)).data ++
          " more".data,
        by simp⟩

/-- No warning of `checkCompleteness` contains " critical keyword". -/
theorem checkCompleteness_warnings_not_critical (o : ParsedResumeContent)
    (t : String) :
    ∀ w ∈ (checkCompleteness o t).warnings,
      jsIncludes w " critical keyword" = false := by
  intro w hw
  rcases checkCompleteness_warnings_shape o t w hw with rfl | rfl | rfl | rfl <;>
    decide

/-- C8: `validateContent` sets `hasMissingKeywords` and emits the
missing-keyword warning exactly when all three hold: strict mode, keyword
match strictly below 80, and strictly more than 2 critical (post-filtered)
missing keywords. -/
theorem missing_keyword_warning_threshold
    (originalResume : ParsedResumeContent)
    (tailoredContent jobDescription : String) (generateFreely : Bool) :
    ((validateContent originalResume tailoredContent jobDescription
        generateFreely).flags.hasMissingKeywords = true ↔
      (generateFreely = false ∧
       calculateKeywordMatch (oaExtractHighImpactKeywords jobDescription)
         (oaExtractHighImpactKeywords tailoredContent) < 80 ∧
       2 < (((oaExtractHighImpactKeywords jobDescription).filter fun keyword =>
         !((oaExtractHighImpactKeywords tailoredContent).any fun tk =>
           jsToLower tk == jsToLower keyword ||
             oaIsSemanticMatch tk keyword)).filter
               oaCriticalMissingFilter).length)) ∧
    ((∃ w ∈ (validateContent originalResume tailoredContent jobDescription
        generateFreely).warnings,
       strStartsWith w "Missing " = true ∧
       jsIncludes w " critical keyword" = true) ↔
      (generateFreely = false ∧
       calculateKeywordMatch (oaExtractHighImpactKeywords jobDescription)
         (oaExtractHighImpactKeywords tailoredContent) < 80 ∧
       2 < (((oaExtractHighImpactKeywords jobDescription).filter fun keyword =>
         !((oaExtractHighImpactKeywords tailoredContent).any fun tk =>
           jsToLower tk == jsToLower keyword ||
             oaIsSemanticMatch tk keyword)).filter
               oaCriticalMissingFilter).length)) := by
  set jobK := oaExtractHighImpactKeywords jobDescription with hjobK
  set tailK := oaExtractHighImpactKeywords tailoredContent with htailK
  set missK := jobK.filter fun keyword =>
    !(tailK.any fun tk =>
      jsToLower tk == jsToLower keyword || oaIsSemanticMatch tk keyword)
    with hmissK
  set cm := missK.filter oaCriticalMissingFilter with hcm
  set hallu := (if !generateFreely then
      checkHallucination originalResume tailoredContent
    else { hasIssues := false, warnings := [] }) with hhallu
  set w1 := (if !generateFreely && hallu.hasIssues then hallu.warnings
    else ([] : List String)) with hw1
  set mw := (!generateFreely &&
    decide (calculateKeywordMatch jobK tailK < 80) &&
    decide (2 < cm.length)) with hmw
  set w2 := (if mw then w1 ++ [mkMissingKeywordWarning cm] else w1) with hw2
  set comp := checkCompleteness originalResume tailoredContent with hcomp
  set w3 := (if comp.hasIssues then w2 ++ comp.warnings else w2) with hw3
  have hflag : (validateContent originalResume tailoredContent jobDescription
      generateFreely).flags.hasMissingKeywords = mw := rfl
  have hwarns : (validateContent originalResume tailoredContent jobDescription
      generateFreely).warnings = w3 := rfl
  have hmwiff : mw = true ↔
      (generateFreely = false ∧ calculateKeywordMatch jobK tailK < 80 ∧
        2 < cm.length) := by
    rw [hmw]
    simp [Bool.and_eq_true, Bool.not_eq_true', and_assoc]
  have hw1shape : ∀ w ∈ w1, strStartsWith w "Missing " = false := by
    intro w hw
    rw [hw1] at hw
    split at hw
    · rw [hhallu] at hw
      split at hw
      · exact checkHallucination_warnings_shape _ _ w hw
      · simp at hw
    · simp at hw
  constructor
  · rw [hflag]
    exact hmwiff
  · rw [hwarns]
    constructor
    · rintro ⟨w, hwmem, hP1, hP2⟩
      rw [← hmwiff]
      by_contra hmwf
      have hmwf' : mw = false := by
        simpa using hmwf
      rw [hw3] at hwmem
      have hw2mem : w ∈ w2 ∨ w ∈ comp.warnings := by
        split at hwmem
        · rcases List.mem_append.mp hwmem with h | h
          · exact Or.inl h
          · exact Or.inr h
        · exact Or.inl hwmem
      have hw1mem : w ∈ w1 ∨ w ∈ comp.warnings := by
        rcases hw2mem with h | h
        · rw [hw2, hmwf'] at h
          simp only [Bool.false_eq_true, if_false] at h
          exact Or.inl h
        · exact Or.inr h
      rcases hw1mem with h | h
      · rw [hw1shape w h] at hP1
        exact absurd hP1 (by simp)
      · rw [hcomp] at h
        rw [checkCompleteness_warnings_not_critical _ _ w h] at hP2
        exact absurd hP2 (by simp)
    · intro hcond
      have hmwt : mw = true := hmwiff.mpr hcond
      refine ⟨mkMissingKeywordWarning cm, ?_, ?_, ?_⟩
      · rw [hw3]
        have : mkMissingKeywordWarning cm ∈ w2 := by
          rw [hw2, hmwt]
          simp
        split
        · exact List.mem_append.mpr (Or.inl this)
        · exact this
      · exact (mkMissingKeywordWarning_shape cm).1
      · exact (mkMissingKeywordWarning_shape cm).2

/-- A resume record with no parsed content. -/
def emptyResume : ParsedResumeContent := { raw_text := none, experience := none }

theorem witness_keywordMatch_lt_80 :
    calculateKeywordMatch
      (oaExtractHighImpactKeywords
        "Python, Docker and Kubernetes developers needed")
      (oaExtractHighImpactKeywords "") < 80 := by
  have hjob : oaExtractHighImpactKeywords
      "Python, Docker and Kubernetes developers needed"
      = ["python", "docker", "kubernetes"] := by decide
  have htail : oaExtractHighImpactKeywords "" = [] := by decide
  rw [hjob, htail]
  simp only [calculateKeywordMatch, List.any_nil, List.filter_eq_nil_iff]
  norm_num [jsRound]

/-- Witness for `missing_keyword_warning_threshold`: with an empty tailored
text and a three-keyword job description in strict mode, the flag is set. -/
theorem missing_keyword_warning_threshold_witness :
    (validateContent emptyResume ""
      "Python, Docker and Kubernetes developers needed"
      false).flags.hasMissingKeywords = true :=
  (missing_keyword_warning_threshold emptyResume ""
      "Python, Docker and Kubernetes developers needed" false).1.mpr
    ⟨rfl, witness_keywordMatch_lt_80, by decide⟩

/-! ## Regeneration verifier (`resume.controller.ts:462`–587)

The post-regeneration verification / score-boost step of `regenerate`:
`missingKeywords` / `matchedKeywords` come from the request body and may be
absent (`Option`); `similarityMetrics` / `qualityScore` are the freshly
computed values for the regenerated text.  (`truthfulness || 0` and
`completeness || 0` are the identity on our exact rationals.) -/
def regenerateVerifyStep (similarityMetrics : SimilarityMetrics)
    (qualityScore : QualityScore)
    (missingKeywords matchedKeywords : Option (List String))
    (fullTailoredResume : String) : SimilarityMetrics × QualityScore :=
  let resumeLower := jsToLower fullTailoredResume
  let addedKeywords := (missingKeywords.getD []).filter fun kw =>
    jsIncludes resumeLower (jsToLower kw)
  let allMissingAdded := (missingKeywords.getD []).all fun kw =>
    jsIncludes resumeLower (jsToLower kw)
  let allMatchedPreserved := (matchedKeywords.getD []).all fun kw =>
    jsIncludes resumeLower (jsToLower kw)
  if allMissingAdded && allMatchedPreserved &&
      (missingKeywords.isNone || (missingKeywords.getD []).length == 0 ||
       (decide (0 < (missingKeywords.getD []).length) &&
        matchedKeywords.isSome &&
        decide (0 < (matchedKeywords.getD []).length))) then
    let comprehensiveMatched :=
      (if matchedKeywords.isSome &&
          decide (0 < (matchedKeywords.getD []).length) then
        matchedKeywords.getD []
      else []) ++
      (if 0 < addedKeywords.length then addedKeywords else [])
    let atsMatched := similarityMetrics.matchedKeywords
    let allMatched := dedupKeepFirst (comprehensiveMatched ++ atsMatched)
    let truth := qualityScore.truthfulness
    let comp := qualityScore.completeness
    ({ similarityMetrics with
        similarityScore := 100,
        keywordCoverage := 100,
        missingKeywords := [],
        matchedKeywords := allMatched },
     { qualityScore with
        keywordMatch := 100,
        overall := jsRound (truth * (0.4 : ℚ) + comp * (0.3 : ℚ) +
          100 * (0.3 : ℚ)) })
  else (similarityMetrics, qualityScore)

/-- A computed metrics value on the regenerate path before verification. -/
def regenMetricsCex : SimilarityMetrics :=
  { similarityScore := 50, matchedKeywords := [], missingKeywords := ["python"],
    keywordCoverage := 50,
    sectionMatches := { skills := 50, experience := 50, education := 50 } }

def regenQualityCex : QualityScore :=
  { overall := 50, truthfulness := 50, completeness := 50, keywordMatch := 50,
    warnings := [],
    flags := { hasHallucination := false, hasMissingKeywords := false,
               hasIncompleteSections := false } }

/-- C1 counterexample: with requested `missingKeywords = ["python"]`,
requested `matchedKeywords = []` and a regenerated text containing "python",
every requested missing keyword is present and every previously-matched
keyword is (vacuously) preserved, yet the verifier does not boost: the
reported score stays 50 and `missingKeywords` is not cleared — the claimed
biconditional fails on the code. -/
theorem regen_boost_biconditional_cex :
    (∀ kw ∈ ["python"],
      jsIncludes (jsToLower "python developer") (jsToLower kw) = true) ∧
    (∀ kw ∈ ([] : List String),
      jsIncludes (jsToLower "python developer") (jsToLower kw) = true) ∧
    (regenerateVerifyStep regenMetricsCex regenQualityCex (some ["python"])
        (some []) "python developer").1.similarityScore = 50 ∧
    (regenerateVerifyStep regenMetricsCex regenQualityCex (some ["python"])
        (some []) "python developer").1.missingKeywords = ["python"] := by
  refine ⟨by decide, by decide, ?_, ?_⟩ <;> rfl

/-- C1 (amended): the regeneration verifier boosts if and only if every
requested missing keyword is present in the regenerated text, every
previously-matched keyword is preserved, **and** (the requested missing list
is absent/empty, or the requested matched list is present and non-empty).
When it boosts, `similarityScore` and `keywordCoverage` become 100,
`missingKeywords` is cleared and `matchedKeywords` is rebuilt as the
first-occurrence-deduplicated union of preserved + newly-added +
freshly-rematched keywords; otherwise both the metrics and the quality score
are returned unchanged (the step never raises a score on its own, though the
unboosted computed score is kept as-is and may itself already be 100). -/
theorem regen_boost_characterization (sm : SimilarityMetrics)
    (qs : QualityScore)
    (missingKeywords matchedKeywords : Option (List String))
    (fullTailoredResume : String) :
    (((∀ kw ∈ missingKeywords.getD [],
        jsIncludes (jsToLower fullTailoredResume) (jsToLower kw) = true) ∧
      (∀ kw ∈ matchedKeywords.getD [],
        jsIncludes (jsToLower fullTailoredResume) (jsToLower kw) = true) ∧
      (missingKeywords = none ∨ missingKeywords.getD [] = [] ∨
        (missingKeywords.getD [] ≠ [] ∧ matchedKeywords ≠ none ∧
          matchedKeywords.getD [] ≠ []))) →
      ((regenerateVerifyStep sm qs missingKeywords matchedKeywords
          fullTailoredResume).1.similarityScore = 100 ∧
       (regenerateVerifyStep sm qs missingKeywords matchedKeywords
          fullTailoredResume).1.keywordCoverage = 100 ∧
       (regenerateVerifyStep sm qs missingKeywords matchedKeywords
          fullTailoredResume).1.missingKeywords = [] ∧
       (regenerateVerifyStep sm qs missingKeywords matchedKeywords
          fullTailoredResume).1.matchedKeywords =
         dedupKeepFirst (matchedKeywords.getD [] ++ missingKeywords.getD [] ++
           sm.matchedKeywords))) ∧
    ((¬ ((∀ kw ∈ missingKeywords.getD [],
        jsIncludes (jsToLower fullTailoredResume) (jsToLower kw) = true) ∧
      (∀ kw ∈ matchedKeywords.getD [],
        jsIncludes (jsToLower fullTailoredResume) (jsToLower kw) = true) ∧
      (missingKeywords = none ∨ missingKeywords.getD [] = [] ∨
        (missingKeywords.getD [] ≠ [] ∧ matchedKeywords ≠ none ∧
          matchedKeywords.getD [] ≠ [])))) →
      ((regenerateVerifyStep sm qs missingKeywords matchedKeywords
          fullTailoredResume).1 = sm ∧
       (regenerateVerifyStep sm qs missingKeywords matchedKeywords
          fullTailoredResume).2 = qs)) := by
  have hgate : (((missingKeywords.getD []).all fun kw =>
        jsIncludes (jsToLower fullTailoredResume) (jsToLower kw)) &&
      ((matchedKeywords.getD []).all fun kw =>
        jsIncludes (jsToLower fullTailoredResume) (jsToLower kw)) &&
      (missingKeywords.isNone || (missingKeywords.getD []).length == 0 ||
       (decide (0 < (missingKeywords.getD []).length) &&
        matchedKeywords.isSome &&
        decide (0 < (matchedKeywords.getD []).length)))) = true ↔
      ((∀ kw ∈ missingKeywords.getD [],
        jsIncludes (jsToLower fullTailoredResume) (jsToLower kw) = true) ∧
      (∀ kw ∈ matchedKeywords.getD [],
        jsIncludes (jsToLower fullTailoredResume) (jsToLower kw) = true) ∧
      (missingKeywords = none ∨ missingKeywords.getD [] = [] ∨
        (missingKeywords.getD [] ≠ [] ∧ matchedKeywords ≠ none ∧
          matchedKeywords.getD [] ≠ []))) := by
    simp only [Bool.and_eq_true, Bool.or_eq_true, List.all_eq_true,
      Option.isNone_iff_eq_none, beq_iff_eq, List.length_eq_zero,
      decide_eq_true_eq, List.length_pos, Option.isSome_iff_ne_none,
      and_assoc, or_assoc]
  constructor
  · intro hcond
    have hg := hgate.mpr hcond
    have hadded : (missingKeywords.getD []).filter (fun kw =>
        jsIncludes (jsToLower fullTailoredResume) (jsToLower kw))
        = missingKeywords.getD [] :=
      List.filter_eq_self.mpr hcond.1
    have hite1 : (if matchedKeywords.isSome &&
        decide (0 < (matchedKeywords.getD []).length) then
          matchedKeywords.getD []
        else []) = matchedKeywords.getD [] := by
      split
      · rfl
      · rename_i hns
        rw [Bool.and_eq_true, Option.isSome_iff_ne_none, decide_eq_true_eq,
          List.length_pos] at hns
        rcases matchedKeywords with _ | l
        · rfl
        · simp only [Option.getD_some]
          by_cases hl : l = []
          · rw [hl]
          · exact absurd ⟨by simp, by simpa using hl⟩ hns
    have hite2 : (if 0 < ((missingKeywords.getD []).filter fun kw =>
        jsIncludes (jsToLower fullTailoredResume) (jsToLower kw)).length then
          (missingKeywords.getD []).filter fun kw =>
            jsIncludes (jsToLower fullTailoredResume) (jsToLower kw)
        else []) = (missingKeywords.getD []).filter fun kw =>
          jsIncludes (jsToLower fullTailoredResume) (jsToLower kw) := by
      split
      · rfl
      · rename_i hns
        rw [Nat.not_lt, Nat.le_zero, List.length_eq_zero] at hns
        rw [hns]
    simp only [regenerateVerifyStep, hg, Bool.true_and, if_true, hite1,
      hite2, hadded, List.append_assoc]
    refine ⟨trivial, trivial, trivial, ?_⟩
    have hix : (if 0 < (missingKeywords.getD []).length then
        missingKeywords.getD [] else ([] : List String))
        = missingKeywords.getD [] := by
      split
      · rfl
      · rename_i h
        rw [Nat.not_lt, Nat.le_zero, List.length_eq_zero] at h
        rw [h]
    rw [hix]
  · intro hcond
    have hg : (((missingKeywords.getD []).all fun kw =>
        jsIncludes (jsToLower fullTailoredResume) (jsToLower kw)) &&
      ((matchedKeywords.getD []).all fun kw =>
        jsIncludes (jsToLower fullTailoredResume) (jsToLower kw)) &&
      (missingKeywords.isNone || (missingKeywords.getD []).length == 0 ||
       (decide (0 < (missingKeywords.getD []).length) &&
        matchedKeywords.isSome &&
        decide (0 < (matchedKeywords.getD []).length)))) = false := by
      by_cases hb : (((missingKeywords.getD []).all fun kw =>
          jsIncludes (jsToLower fullTailoredResume) (jsToLower kw)) &&
        ((matchedKeywords.getD []).all fun kw =>
          jsIncludes (jsToLower fullTailoredResume) (jsToLower kw)) &&
        (missingKeywords.isNone || (missingKeywords.getD []).length == 0 ||
         (decide (0 < (missingKeywords.getD []).length) &&
          matchedKeywords.isSome &&
          decide (0 < (matchedKeywords.getD []).length)))) = true
      · exact absurd (hgate.mp hb) hcond
      · rw [Bool.not_eq_true] at hb
        exact hb
    simp only [regenerateVerifyStep, hg, Bool.false_eq_true, if_false]
    exact ⟨trivial, trivial⟩

def regenMetricsWitness : SimilarityMetrics :=
  { similarityScore := 60, matchedKeywords := ["aws"],
    missingKeywords := ["python"], keywordCoverage := 60,
    sectionMatches := { skills := 50, experience := 50, education := 50 } }

/-- Witness for `regen_boost_characterization`: with both requested lists
present in the regenerated text, the verifier clears `missingKeywords`. -/
theorem regen_boost_characterization_witness :
    (regenerateVerifyStep regenMetricsWitness regenQualityCex (some ["python"])
        (some ["java"]) "python java developer").1.missingKeywords = [] :=
  ((regen_boost_characterization regenMetricsWitness regenQualityCex
      (some ["python"]) (some ["java"]) "python java developer").1
    ⟨by decide, by decide,
     Or.inr (Or.inr ⟨by decide, by decide, by decide⟩)⟩).2.2.1
